import Mathlib

/-!
Verification of the everyrow-make repository scripts.

Shallow embedding of:
  - scripts/test-module.ts : the asynchronous EveryRow API workflow
    (create session, create artifact, poll status, submit rank task),
    the Make.com parameter simulation and the IML template processor;
  - scripts/test-makecom-validation.ts : validateMakecomParameter;
  - scripts/deploy.ts (two revisions) : deploy orchestration against the
    Make.com SDK API.

JavaScript values are modelled by the inductive JVal; JSON numbers are
modelled as integers (the scripts only ever move integral or string data).
Machine-level behaviour (fetch, timers) is modelled by explicit oracles:
the n-th HTTP request issued receives the response given by the oracle at
index n (for the test-module flow), or the response keyed by the request
itself (for the deploy scripts).  A JavaScript exception is modelled by
Except.error carrying the message.
-/

set_option maxHeartbeats 1000000

namespace EveryRow

/-- A JavaScript/JSON value.  Numbers are modelled as integers; the scripts
under verification never manipulate fractional numbers. -/
inductive JVal where
  | null : JVal
  | bool (b : Bool) : JVal
  | num (n : Int) : JVal
  | str (s : String) : JVal
  | arr (xs : List JVal) : JVal
  | obj (fields : List (String × JVal)) : JVal

/-- Join a list of strings with a separator, as Array.prototype.flatten. -/
def joinWith (sep : String) : List String → String
  | [] => ""
  | [x] => x
  | x :: xs => x ++ sep ++ joinWith sep xs

/-- Escape the characters of a string body as JSON.stringify does. -/
def escapeChars : List Char → List Char
  | [] => []
  | c :: cs =>
    (if c = '"' then ['\\', '"']
     else if c = '\\' then ['\\', '\\']
     else if c = '\n' then ['\\', 'n']
     else if c = '\t' then ['\\', 't']
     else if c = '\r' then ['\\', 'r']
     else [c]) ++ escapeChars cs

/-- Quote a string as JSON.stringify does. -/
def jsonQuote (s : String) : String :=
  "\"" ++ String.mk (escapeChars s.data) ++ "\""

mutual

/-- Rendering of a value as JSON.stringify does. -/
def jsonStringify : JVal → String
  | .null => "null"
  | .bool b => if b then "true" else "false"
  | .num n => toString n
  | .str s => jsonQuote s
  | .arr xs => "[" ++ jsonStringifyList xs ++ "]"
  | .obj fs => "\x7b" ++ jsonStringifyFields fs ++ "\x7d"

/-- Comma-joined JSON.stringify of array elements. -/
def jsonStringifyList : List JVal → String
  | [] => ""
  | [x] => jsonStringify x
  | x :: y :: xs => jsonStringify x ++ "," ++ jsonStringifyList (y :: xs)

/-- Comma-joined JSON.stringify of object fields. -/
def jsonStringifyFields : List (String × JVal) → String
  | [] => ""
  | [p] => jsonQuote p.1 ++ ":" ++ jsonStringify p.2
  | p :: q :: fs => jsonQuote p.1 ++ ":" ++ jsonStringify p.2 ++ "," ++ jsonStringifyFields (q :: fs)

end

mutual

/-- The JavaScript String() coercion on a modelled value. -/
def jsToString : JVal → String
  | .null => "null"
  | .bool b => if b then "true" else "false"
  | .num n => toString n
  | .str s => s
  | .arr xs => jsToStringList xs
  | .obj _ => "[object Object]"

/-- Array.prototype.flatten with separator comma: null elements are rendered
as the empty string. -/
def jsToStringList : List JVal → String
  | [] => ""
  | [.null] => ""
  | [x] => jsToString x
  | .null :: y :: xs => "," ++ jsToStringList (y :: xs)
  | x :: y :: xs => jsToString x ++ "," ++ jsToStringList (y :: xs)

end

/-- Whether the JavaScript typeof operator yields "object" on the value
(true for null, arrays and plain objects). -/
def isObjectType : JVal → Bool
  | .null => true
  | .arr _ => true
  | .obj _ => true
  | _ => false

/-- JavaScript truthiness of a modelled value. -/
def jsTruthy : JVal → Bool
  | .null => false
  | .bool b => b
  | .num n => n != 0
  | .str s => s != ""
  | .arr _ => true
  | .obj _ => true

/-- The string produced by the JavaScript typeof operator, with none
standing for undefined. -/
def jsTypeof : Option JVal → String
  | none => "undefined"
  | some .null => "object"
  | some (.bool _) => "boolean"
  | some (.num _) => "number"
  | some (.str _) => "string"
  | some (.arr _) => "object"
  | some (.obj _) => "object"

/-- First-match lookup in an association list, modelling property access on
a JavaScript object with distinct keys. -/
def assocGet : List (String × JVal) → String → Option JVal
  | [], _ => none
  | p :: ps, k => if p.1 = k then some p.2 else assocGet ps k

/-!
## getModuleTypeId (scripts/deploy.ts, both revisions)

Both revisions of the deploy script contain a literal function mapping a
module type name to the numeric Make.com type id, via a record lookup with
a JavaScript falsy-default to 4.
-/

/-- The module type table of scripts/deploy.ts (current revision). -/
def moduleTypeTable : List (String × Nat) :=
  [("action", 4), ("search", 9), ("trigger", 1), ("instant_trigger", 5),
   ("responder", 11), ("universal", 12)]

/-- Lookup in a string-keyed record of numbers, as record indexing. -/
def recordLookup : List (String × Nat) → String → Option Nat
  | [], _ => none
  | p :: ps, k => if p.1 = k then some p.2 else recordLookup ps k

/-- getModuleTypeId from scripts/deploy.ts (current revision): record
lookup with the JavaScript or-default (a falsy hit, absent or zero, gives
4). -/
def getModuleTypeId (type : String) : Nat :=
  match recordLookup moduleTypeTable type with
  | some n => if n = 0 then 4 else n
  | none => 4

/-- The module type table of the earlier revision of scripts/deploy.ts. -/
def moduleTypeTableV1 : List (String × Nat) :=
  [("action", 4), ("search", 9), ("trigger", 1), ("instant_trigger", 5),
   ("responder", 11), ("universal", 12)]

/-- getModuleTypeId from the earlier revision of scripts/deploy.ts. -/
def getModuleTypeIdV1 (type : String) : Nat :=
  match recordLookup moduleTypeTableV1 type with
  | some n => if n = 0 then 4 else n
  | none => 4

/-- C10: getModuleTypeId is total and identical in both revisions of the
deploy script: both return 4 for action, 9 for search, 1 for trigger, 5
for instant_trigger, 11 for responder, 12 for universal, and 4 for every
other input string. -/
theorem getModuleTypeId_total_and_identical :
    (∀ s : String, getModuleTypeId s = getModuleTypeIdV1 s) ∧
    getModuleTypeId "action" = 4 ∧
    getModuleTypeId "search" = 9 ∧
    getModuleTypeId "trigger" = 1 ∧
    getModuleTypeId "instant_trigger" = 5 ∧
    getModuleTypeId "responder" = 11 ∧
    getModuleTypeId "universal" = 12 ∧
    (∀ s : String,
      s ∉ ["action", "search", "trigger", "instant_trigger", "responder", "universal"] →
      getModuleTypeId s = 4) := by
  refine ⟨fun s => rfl, rfl, rfl, rfl, rfl, rfl, rfl, ?_⟩
  intro s hs
  simp only [List.mem_cons, List.mem_singleton, not_or] at hs
  obtain ⟨h1, h2, h3, h4, h5, h6, -⟩ := hs
  have g1 : ¬("action" = s) := fun h => h1 h.symm
  have g2 : ¬("search" = s) := fun h => h2 h.symm
  have g3 : ¬("trigger" = s) := fun h => h3 h.symm
  have g4 : ¬("instant_trigger" = s) := fun h => h4 h.symm
  have g5 : ¬("responder" = s) := fun h => h5 h.symm
  have g6 : ¬("universal" = s) := fun h => h6 h.symm
  simp [getModuleTypeId, recordLookup, moduleTypeTable, g1, g2, g3, g4, g5, g6]

/-- Witness for C10: evaluation of both versions on a string outside the
table. -/
theorem getModuleTypeId_total_and_identical_witness :
    getModuleTypeId "no_such_type" = 4 ∧ getModuleTypeIdV1 "no_such_type" = 4 := by
  have h := getModuleTypeId_total_and_identical
  refine ⟨h.2.2.2.2.2.2.2 "no_such_type" (by decide), ?_⟩
  rw [← h.1 "no_such_type"]
  exact h.2.2.2.2.2.2.2 "no_such_type" (by decide)

/-!
## The asynchronous workflow of scripts/test-module.ts (testStartRankTaskFlow)

The flow issues HTTP requests strictly sequentially; the oracle gives the
outcome of the n-th request issued (Except.error models a rejected fetch,
a JSON-parse failure of the response body, or any other throw inside
apiRequest).  Timer waits are recorded as sleep events in the trace.
-/

/-- A parsed EveryRow API response: the HTTP status code together with the
body fields the flow reads.  A missing field is none. -/
structure Resp where
  httpStatus : Nat
  session_id : Option String := none
  task_id : Option String := none
  artifact_id : Option String := none
  status : Option String := none
deriving DecidableEq

/-- The response-status check used after every non-polling request:
the code throws unless the HTTP status is 200 or 201. -/
def okStatus (r : Resp) : Bool :=
  r.httpStatus == 200 || r.httpStatus == 201

/-- JavaScript template interpolation of a possibly-undefined string. -/
def jsStr : Option String → String
  | some s => s
  | none => "undefined"

/-- The truthiness test statusRes.data.artifact_id performed by the poll
loop: a present, non-empty artifact id. -/
def artifactOf (r : Resp) : Option String :=
  match r.artifact_id with
  | some a => if a = "" then none else some a
  | none => none

/-- The body fields of a response assembled back into a JSON value, used
by the error messages that stringify the response data. -/
def respJson (r : Resp) : JVal :=
  .obj ((match r.session_id with | some s => [("session_id", JVal.str s)] | none => []) ++
        (match r.task_id with | some s => [("task_id", JVal.str s)] | none => []) ++
        (match r.artifact_id with | some s => [("artifact_id", JVal.str s)] | none => []) ++
        (match r.status with | some s => [("status", JVal.str s)] | none => []))

/-- JSON.stringify of the response data, as used in thrown messages. -/
def renderResp (r : Resp) : String := jsonStringify (respJson r)

/-- The test input record of testStartRankTaskFlow. -/
structure TestInput where
  sessionName : String
  inputData : JVal
  task : String
  fieldName : String
  fieldType : String
  ascendingOrder : Bool

/-- The TEST_DATA constant of scripts/test-module.ts. -/
def TEST_DATA : JVal :=
  .arr [.obj [("name", .str "OpenAI"), ("description", .str "AI research company")],
        .obj [("name", .str "Stripe"), ("description", .str "Payment processing platform")],
        .obj [("name", .str "Anthropic"), ("description", .str "AI safety company")]]

/-- The literal testInput of testStartRankTaskFlow. -/
def testInput : TestInput :=
  ⟨"Test Rank Session", TEST_DATA, "Rank by relevance to AI", "rank_score", "float", false⟩

/-- The response_schema object built for the deep_rank task: a _model_name
field plus one computed field of the requested name and type, optional
false. -/
structure RankSchema where
  modelName : String
  fieldName : String
  fieldType : String
  optionalFlag : Bool

/-- The payload of a POST /tasks request issued by the flow. -/
inductive TaskPayload where
  | create_group (data_to_create : JVal)
  | deep_rank (task : String) (field_to_sort_by : String) (ascending_order : Bool)
      (response_schema : RankSchema)
      (input_artifacts : List String) (context_artifacts : List String)

/-- The body of a POST /tasks request: the session_id field (absent if the
create-session response carried none) and the payload. -/
structure TaskBody where
  session_id : Option String
  payload : TaskPayload

/-- A request body sent by the flow. -/
inductive ReqBody where
  | sessionCreate (name : String)
  | task (body : TaskBody)

/-- An HTTP request issued through apiRequest. -/
structure Req where
  method : String
  endpoint : String
  body : Option ReqBody

/-- A trace event: a request issued or a timer wait in milliseconds. -/
inductive Event where
  | req (r : Req)
  | sleep (ms : Nat)

/-- Number of requests in a trace. -/
def reqCount : List Event → Nat
  | [] => 0
  | .req _ :: es => reqCount es + 1
  | .sleep _ :: es => reqCount es

/-- The requests of a trace, in order. -/
def reqsOf : List Event → List Req
  | [] => []
  | .req r :: es => r :: reqsOf es
  | .sleep _ :: es => reqsOf es

/-- The POST /sessions/create request (step 2 of the flow). -/
def sessionReq (input : TestInput) : Req :=
  ⟨"POST", "/sessions/create", some (.sessionCreate input.sessionName)⟩

/-- The POST /tasks request creating the artifact (step 3). -/
def artifactReq (input : TestInput) (sid : Option String) : Req :=
  ⟨"POST", "/tasks", some (.task ⟨sid, .create_group input.inputData⟩)⟩

/-- The GET status request of the poll loop (step 4). -/
def statusReq (tid : String) : Req :=
  ⟨"GET", "/tasks/" ++ tid ++ "/status", none⟩

/-- The POST /tasks request submitting the deep_rank task (step 5). -/
def rankReq (input : TestInput) (sid : Option String) (artifactId : String) : Req :=
  ⟨"POST", "/tasks", some (.task ⟨sid,
    .deep_rank input.task input.fieldName input.ascendingOrder
      ⟨"RankResponse", input.fieldName, input.fieldType, false⟩
      [artifactId] []⟩)⟩

/-- Outcome of the poll loop of step 4. -/
inductive PollRes where
  | ok (artifactId : String)
  | failedResp (r : Resp)
  | timeout
  | netErr (e : String)

/-- The poll loop of step 4: up to fuel attempts starting at oracle index
base; each attempt issues a GET status request; a truthy artifact_id
breaks out, a failed status throws, otherwise the loop sleeps 1000 ms and
retries. -/
def pollTrace (oracle : Nat → Except String Resp) (tid : String) :
    Nat → Nat → List Event × PollRes
  | _, 0 => ([], .timeout)
  | base, fuel + 1 =>
    match oracle base with
    | .error e => ([.req (statusReq tid)], .netErr e)
    | .ok r =>
      match artifactOf r with
      | some a => ([.req (statusReq tid)], .ok a)
      | none =>
        if r.status = some "failed" then ([.req (statusReq tid)], .failedResp r)
        else
          let rest := pollTrace oracle tid (base + 1) fuel
          (.req (statusReq tid) :: .sleep 1000 :: rest.1, rest.2)

/-- The record pushed on success: session id, artifact id, rank task id. -/
structure FlowOk where
  sessionId : Option String
  artifactId : String
  rankTaskId : Option String

/-- testStartRankTaskFlow from scripts/test-module.ts: create session,
create artifact, poll for the artifact id (at most 30 attempts, 1000 ms
apart), then submit the deep_rank task referencing the artifact.  Returns
the event trace and either the success record or the thrown error. -/
def runFlow (input : TestInput) (oracle : Nat → Except String Resp) :
    List Event × Except String FlowOk :=
  match oracle 0 with
  | .error e => ([.req (sessionReq input)], .error e)
  | .ok r0 =>
    if okStatus r0 then
      match oracle 1 with
      | .error e =>
        ([.req (sessionReq input), .req (artifactReq input r0.session_id)], .error e)
      | .ok r1 =>
        if okStatus r1 then
          match (pollTrace oracle (jsStr r1.task_id) 2 30).2 with
          | .netErr e =>
            (.req (sessionReq input) :: .req (artifactReq input r0.session_id) ::
               (pollTrace oracle (jsStr r1.task_id) 2 30).1, .error e)
          | .failedResp r =>
            (.req (sessionReq input) :: .req (artifactReq input r0.session_id) ::
               (pollTrace oracle (jsStr r1.task_id) 2 30).1,
             .error ("Artifact creation failed: " ++ renderResp r))
          | .timeout =>
            (.req (sessionReq input) :: .req (artifactReq input r0.session_id) ::
               (pollTrace oracle (jsStr r1.task_id) 2 30).1,
             .error "Timeout waiting for artifact")
          | .ok a =>
            match oracle (2 + reqCount (pollTrace oracle (jsStr r1.task_id) 2 30).1) with
            | .error e =>
              (.req (sessionReq input) :: .req (artifactReq input r0.session_id) ::
                 (pollTrace oracle (jsStr r1.task_id) 2 30).1 ++
                   [.req (rankReq input r0.session_id a)], .error e)
            | .ok r2 =>
              if okStatus r2 then
                (.req (sessionReq input) :: .req (artifactReq input r0.session_id) ::
                   (pollTrace oracle (jsStr r1.task_id) 2 30).1 ++
                     [.req (rankReq input r0.session_id a)],
                 .ok ⟨r0.session_id, a, r2.task_id⟩)
              else
                (.req (sessionReq input) :: .req (artifactReq input r0.session_id) ::
                   (pollTrace oracle (jsStr r1.task_id) 2 30).1 ++
                     [.req (rankReq input r0.session_id a)],
                 .error ("Failed to create rank task: " ++ renderResp r2))
        else
          ([.req (sessionReq input), .req (artifactReq input r0.session_id)],
           .error ("Failed to create artifact: " ++ renderResp r1))
    else
      ([.req (sessionReq input)], .error ("Failed to create session: " ++ renderResp r0))

/-- Classification of the requests the flow can issue. -/
inductive StepKind where
  | kSession
  | kArtifact
  | kStatus
  | kRank
deriving DecidableEq

/-- The step a request belongs to, read off its body. -/
def reqKind (r : Req) : StepKind :=
  match r.body with
  | some (.sessionCreate _) => .kSession
  | some (.task tb) =>
    match tb.payload with
    | .create_group _ => .kArtifact
    | .deep_rank .. => .kRank
  | none => .kStatus

/-- The task body of a request, when it is a POST /tasks submission. -/
def taskBodyOf (r : Req) : Option TaskBody :=
  match r.body with
  | some (.task tb) => some tb
  | _ => none

/-- The input_artifacts and context_artifacts of a deep_rank submission. -/
def rankArtifactsOf (r : Req) : Option (List String × List String) :=
  match r.body with
  | some (.task tb) =>
    match tb.payload with
    | .deep_rank _ _ _ _ ia ca => some (ia, ca)
    | _ => none
  | _ => none

/-- A status response on which the poll loop keeps polling: a successful
request whose body has no truthy artifact_id and whose status is not the
string failed. -/
def nonDecisive (x : Except String Resp) : Prop :=
  ∃ r, x = .ok r ∧ artifactOf r = none ∧ r.status ≠ some "failed"

/-- Shape check for the poll segment of a trace: requests and sleeps
alternate starting with a request, every sleep is exactly 1000 ms, and
two requests are never adjacent. -/
def pollShape : List Event → Bool
  | [] => true
  | [.req _] => true
  | .req _ :: .sleep d :: rest => (d == 1000) && pollShape rest
  | _ => false

theorem pollTrace_reqCount_le (o : Nat → Except String Resp) (t : String) :
    ∀ fuel base, reqCount (pollTrace o t base fuel).1 ≤ fuel := by
  intro fuel
  induction fuel with
  | zero => intro base; simp [pollTrace, reqCount]
  | succ f ih =>
    intro base
    simp only [pollTrace]
    cases o base with
    | error e => simp [reqCount]
    | ok r =>
      cases hA : artifactOf r with
      | some a => simp only [hA]; simp [reqCount]
      | none =>
        simp only [hA]
        by_cases hF : r.status = some "failed"
        · rw [if_pos hF]; simp [reqCount]
        · rw [if_neg hF]
          simp only [reqCount]
          exact Nat.succ_le_succ (ih (base + 1))

theorem pollTrace_events (o : Nat → Except String Resp) (t : String) :
    ∀ fuel base e, e ∈ (pollTrace o t base fuel).1 →
      e = .req (statusReq t) ∨ e = .sleep 1000 := by
  intro fuel
  induction fuel with
  | zero => intro base e he; simp [pollTrace] at he
  | succ f ih =>
    intro base e he
    simp only [pollTrace] at he
    cases hO : o base with
    | error e2 => simp only [hO] at he; simp at he; exact Or.inl he
    | ok r =>
      simp only [hO] at he
      cases hA : artifactOf r with
      | some a => simp only [hA] at he; simp at he; exact Or.inl he
      | none =>
        simp only [hA] at he
        by_cases hF : r.status = some "failed"
        · rw [if_pos hF] at he; simp at he; exact Or.inl he
        · rw [if_neg hF] at he
          simp only [List.mem_cons] at he
          rcases he with h | h | h
          · exact Or.inl h
          · exact Or.inr h
          · exact ih (base + 1) e h

theorem pollTrace_reqs (o : Nat → Except String Resp) (t : String) :
    ∀ fuel base, reqsOf (pollTrace o t base fuel).1 =
      List.replicate (reqCount (pollTrace o t base fuel).1) (statusReq t) := by
  intro fuel
  induction fuel with
  | zero => intro base; simp [pollTrace, reqsOf, reqCount]
  | succ f ih =>
    intro base
    simp only [pollTrace]
    cases o base with
    | error e => simp [reqsOf, reqCount, List.replicate]
    | ok r =>
      cases hA : artifactOf r with
      | some a => simp only [hA]; simp [reqsOf, reqCount, List.replicate]
      | none =>
        simp only [hA]
        by_cases hF : r.status = some "failed"
        · rw [if_pos hF]; simp [reqsOf, reqCount, List.replicate]
        · rw [if_neg hF]
          simp only [reqsOf, reqCount]
          rw [ih (base + 1)]
          simp [List.replicate]

theorem pollTrace_shape (o : Nat → Except String Resp) (t : String) :
    ∀ fuel base, pollShape (pollTrace o t base fuel).1 = true := by
  intro fuel
  induction fuel with
  | zero => intro base; simp [pollTrace, pollShape]
  | succ f ih =>
    intro base
    simp only [pollTrace]
    cases o base with
    | error e => simp [pollShape]
    | ok r =>
      cases hA : artifactOf r with
      | some a => simp only [hA]; simp [pollShape]
      | none =>
        simp only [hA]
        by_cases hF : r.status = some "failed"
        · rw [if_pos hF]; simp [pollShape]
        · rw [if_neg hF]
          simp only [pollShape]
          simp [ih (base + 1)]

theorem pollTrace_ok (o : Nat → Except String Resp) (t : String) :
    ∀ fuel base a, (pollTrace o t base fuel).2 = .ok a →
      ∃ j, j < fuel ∧ (∃ r, o (base + j) = .ok r ∧ artifactOf r = some a) ∧
        (∀ i, i < j → nonDecisive (o (base + i))) ∧
        reqCount (pollTrace o t base fuel).1 = j + 1 := by
  intro fuel
  induction fuel with
  | zero => intro base a h; simp [pollTrace] at h
  | succ f ih =>
    intro base a h
    simp only [pollTrace] at h ⊢
    cases hO : o base with
    | error e => simp only [hO] at h; simp at h
    | ok r =>
      simp only [hO] at h
      cases hA : artifactOf r with
      | some a2 =>
        simp only [hA] at h
        simp at h
        refine ⟨0, Nat.succ_pos f, ⟨r, by simpa using hO, by rw [hA, h]⟩, ?_, ?_⟩
        · intro i hi; exact absurd hi (Nat.not_lt_zero i)
        · simp only [hO, hA]; simp [reqCount]
      | none =>
        simp only [hA] at h
        by_cases hF : r.status = some "failed"
        · rw [if_pos hF] at h; simp at h
        · rw [if_neg hF] at h
          obtain ⟨j, hj, hr, hnd, hc⟩ := ih (base + 1) a h
          refine ⟨j + 1, Nat.succ_lt_succ hj, ?_, ?_, ?_⟩
          · obtain ⟨r2, hr2, ha2⟩ := hr
            exact ⟨r2, by rw [show base + (j + 1) = base + 1 + j by omega]; exact hr2, ha2⟩
          · intro i hi
            cases i with
            | zero => exact ⟨r, by simpa using hO, hA, hF⟩
            | succ i2 =>
              have := hnd i2 (by omega)
              rw [show base + (i2 + 1) = base + 1 + i2 by omega]
              exact this
          · simp only [hO, hA]; rw [if_neg hF]
            simp only [reqCount]
            omega

theorem pollTrace_failed (o : Nat → Except String Resp) (t : String) :
    ∀ fuel base j r, j < fuel → (∀ i, i < j → nonDecisive (o (base + i))) →
      o (base + j) = .ok r → artifactOf r = none → r.status = some "failed" →
      (pollTrace o t base fuel).2 = .failedResp r ∧
        reqCount (pollTrace o t base fuel).1 = j + 1 := by
  intro fuel
  induction fuel with
  | zero => intro base j r hj; omega
  | succ f ih =>
    intro base j r hj hnd hO hA hF
    simp only [pollTrace]
    cases j with
    | zero =>
      simp only [Nat.add_zero] at hO
      simp only [hO, hA]; rw [if_pos hF]
      simp [reqCount]
    | succ j2 =>
      obtain ⟨r0, hr0, ha0, hf0⟩ := hnd 0 (Nat.succ_pos j2)
      simp only [Nat.add_zero] at hr0
      simp only [hr0, ha0]; rw [if_neg hf0]
      have step : ∀ i, i < j2 → nonDecisive (o (base + 1 + i)) := by
        intro i hi
        have := hnd (i + 1) (by omega)
        rw [show base + (i + 1) = base + 1 + i by omega] at this
        exact this
      have hO2 : o (base + 1 + j2) = .ok r := by
        rw [show base + 1 + j2 = base + (j2 + 1) by omega]; exact hO
      obtain ⟨h1, h2⟩ := ih (base + 1) j2 r (by omega) step hO2 hA hF
      refine ⟨h1, ?_⟩
      simp only [reqCount]
      omega

theorem pollTrace_timeout (o : Nat → Except String Resp) (t : String) :
    ∀ fuel base, ((pollTrace o t base fuel).2 = .timeout ↔
      ∀ j, j < fuel → nonDecisive (o (base + j))) := by
  intro fuel
  induction fuel with
  | zero =>
    intro base
    simp [pollTrace]
  | succ f ih =>
    intro base
    simp only [pollTrace]
    cases hO : o base with
    | error e =>
      dsimp only
      constructor
      · intro h; simp at h
      · intro h
        obtain ⟨r, hr, -, -⟩ := h 0 (Nat.succ_pos f)
        simp only [Nat.add_zero] at hr
        simp only [hO] at hr; simp at hr
    | ok r =>
      dsimp only
      cases hA : artifactOf r with
      | some a =>
        simp only [hA]
        constructor
        · intro h; simp at h
        · intro h
          obtain ⟨r2, hr2, ha2, -⟩ := h 0 (Nat.succ_pos f)
          simp only [Nat.add_zero] at hr2
          simp only [hO] at hr2
          simp at hr2
          rw [← hr2] at ha2
          simp only [hA] at ha2; simp at ha2
      | none =>
        simp only [hA]
        by_cases hF : r.status = some "failed"
        · rw [if_pos hF]
          constructor
          · intro h; simp at h
          · intro h
            obtain ⟨r2, hr2, -, hf2⟩ := h 0 (Nat.succ_pos f)
            simp only [Nat.add_zero] at hr2
            simp only [hO] at hr2
            simp at hr2
            rw [← hr2] at hf2
            exact absurd hF hf2
        · rw [if_neg hF]
          dsimp only
          rw [ih (base + 1)]
          constructor
          · intro h j hj
            cases j with
            | zero => exact ⟨r, by simpa using hO, hA, hF⟩
            | succ j2 =>
              have := h j2 (by omega)
              rw [show base + 1 + j2 = base + (j2 + 1) by omega] at this
              exact this
          · intro h j hj
            have := h (j + 1) (by omega)
            rw [show base + (j + 1) = base + 1 + j by omega] at this
            exact this

theorem pollTrace_timeout_count (o : Nat → Except String Resp) (t : String) :
    ∀ fuel base, (pollTrace o t base fuel).2 = .timeout →
      reqCount (pollTrace o t base fuel).1 = fuel := by
  intro fuel
  induction fuel with
  | zero => intro base h; simp [pollTrace, reqCount]
  | succ f ih =>
    intro base h
    simp only [pollTrace] at h ⊢
    cases hO : o base with
    | error e => simp only [hO] at h; simp at h
    | ok r =>
      simp only [hO] at h ⊢
      cases hA : artifactOf r with
      | some a => simp only [hA] at h; simp at h
      | none =>
        simp only [hA] at h ⊢
        by_cases hF : r.status = some "failed"
        · rw [if_pos hF] at h; simp at h
        · rw [if_neg hF] at h ⊢
          simp only [reqCount]
          rw [ih (base + 1) h]

theorem pollTrace_err (o : Nat → Except String Resp) (t : String) :
    ∀ fuel base j e, j < reqCount (pollTrace o t base fuel).1 →
      o (base + j) = .error e →
      (pollTrace o t base fuel).2 = .netErr e ∧
        reqCount (pollTrace o t base fuel).1 = j + 1 := by
  intro fuel
  induction fuel with
  | zero => intro base j e hj; simp [pollTrace, reqCount] at hj
  | succ f ih =>
    intro base j e hj hO
    simp only [pollTrace] at hj ⊢
    cases hB : o base with
    | error e2 =>
      simp only [hB] at hj ⊢
      simp only [reqCount] at hj
      have : j = 0 := by simp [reqCount] at hj; omega
      subst this
      simp only [Nat.add_zero] at hO
      simp only [hB] at hO
      simp at hO
      subst hO
      simp [reqCount]
    | ok r =>
      simp only [hB] at hj ⊢
      cases hA : artifactOf r with
      | some a =>
        simp only [hA] at hj
        simp only [reqCount] at hj
        have : j = 0 := by simp [reqCount] at hj; omega
        subst this
        simp only [Nat.add_zero] at hO
        simp only [hB] at hO; simp at hO
      | none =>
        simp only [hA] at hj ⊢
        by_cases hF : r.status = some "failed"
        · rw [if_pos hF] at hj
          simp only [reqCount] at hj
          have : j = 0 := by simp [reqCount] at hj; omega
          subst this
          simp only [Nat.add_zero] at hO
          simp only [hB] at hO; simp at hO
        · rw [if_neg hF] at hj ⊢
          simp only [reqCount] at hj ⊢
          cases j with
          | zero =>
            simp only [Nat.add_zero] at hO
            simp only [hB] at hO; simp at hO
          | succ j2 =>
            have hO2 : o (base + 1 + j2) = .error e := by
              rw [show base + 1 + j2 = base + (j2 + 1) by omega]; exact hO
            obtain ⟨h1, h2⟩ := ih (base + 1) j2 e (by omega) hO2
            exact ⟨h1, by omega⟩

theorem reqCount_append : ∀ l1 l2 : List Event, reqCount (l1 ++ l2) = reqCount l1 + reqCount l2 := by
  intro l1 l2
  induction l1 with
  | nil => simp [reqCount]
  | cons e es ih =>
    cases e with
    | req r => simp [reqCount, ih]; omega
    | sleep d => simp [reqCount, ih]

theorem reqsOf_append : ∀ l1 l2 : List Event, reqsOf (l1 ++ l2) = reqsOf l1 ++ reqsOf l2 := by
  intro l1 l2
  induction l1 with
  | nil => simp [reqsOf]
  | cons e es ih =>
    cases e with
    | req r => simp [reqsOf, ih]
    | sleep d => simp [reqsOf, ih]

/-- C2: the poll-status step terminates: it issues at most 30 status
requests; it stops with the artifact id of the first status response that
carries a truthy one (all earlier responses being non-decisive), failing
which it fails immediately on a response whose status is failed, and it
times out with the error message Timeout waiting for artifact exactly when
all 30 responses are non-decisive. -/
theorem poll_step_terminates :
    (∀ (o : Nat → Except String Resp) (t : String) (b : Nat),
        reqCount (pollTrace o t b 30).1 ≤ 30) ∧
    (∀ (o : Nat → Except String Resp) (t : String) (b : Nat) (a : String),
        (pollTrace o t b 30).2 = .ok a →
        ∃ j, j < 30 ∧ (∃ r, o (b + j) = .ok r ∧ artifactOf r = some a) ∧
          (∀ i, i < j → nonDecisive (o (b + i))) ∧
          reqCount (pollTrace o t b 30).1 = j + 1) ∧
    (∀ (o : Nat → Except String Resp) (t : String) (b j : Nat) (r : Resp),
        j < 30 → (∀ i, i < j → nonDecisive (o (b + i))) →
        o (b + j) = .ok r → artifactOf r = none → r.status = some "failed" →
        (pollTrace o t b 30).2 = .failedResp r ∧
          reqCount (pollTrace o t b 30).1 = j + 1) ∧
    (∀ (o : Nat → Except String Resp) (t : String) (b : Nat),
        ((pollTrace o t b 30).2 = .timeout ↔ ∀ j, j < 30 → nonDecisive (o (b + j)))) ∧
    (∀ (input : TestInput) (o : Nat → Except String Resp) (r0 r1 : Resp),
        o 0 = .ok r0 → okStatus r0 = true → o 1 = .ok r1 → okStatus r1 = true →
        (pollTrace o (jsStr r1.task_id) 2 30).2 = .timeout →
        (runFlow input o).2 = .error "Timeout waiting for artifact") := by
  refine ⟨fun o t b => pollTrace_reqCount_le o t 30 b,
          fun o t b a h => pollTrace_ok o t 30 b a h,
          fun o t b j r h1 h2 h3 h4 h5 => pollTrace_failed o t 30 b j r h1 h2 h3 h4 h5,
          fun o t b => pollTrace_timeout o t 30 b, ?_⟩
  intro input o r0 r1 h0 hs0 h1 hs1 hp
  simp only [runFlow, h0, hs0, h1, hs1, hp]
  simp

/-- Witness for C2: a concrete oracle whose first response already reports
a failed status makes the poll loop fail immediately after one request. -/
theorem poll_step_terminates_witness :
    (pollTrace (fun _ => .ok ⟨200, none, none, none, some "failed"⟩) "T" 0 30).2 =
      .failedResp ⟨200, none, none, none, some "failed"⟩ ∧
    reqCount (pollTrace (fun _ => .ok ⟨200, none, none, none, some "failed"⟩) "T" 0 30).1 = 1 := by
  exact poll_step_terminates.2.2.1 (fun _ => .ok ⟨200, none, none, none, some "failed"⟩)
    "T" 0 0 ⟨200, none, none, none, some "failed"⟩ (by omega)
    (fun i hi => absurd hi (Nat.not_lt_zero i)) rfl rfl rfl

theorem runFlow_events (input : TestInput) (o : Nat → Except String Resp) :
    ∀ e ∈ (runFlow input o).1, (∃ r, e = .req r) ∨ e = .sleep 1000 := by
  intro e he
  cases h0 : o 0 with
  | error e0 =>
    simp only [runFlow, h0] at he
    simp only [List.mem_cons, List.not_mem_nil, or_false] at he
    exact Or.inl ⟨_, he⟩
  | ok r0 =>
    simp only [runFlow, h0] at he
    by_cases hs0 : okStatus r0 = true
    case neg =>
      rw [if_neg hs0] at he
      simp only [List.mem_cons, List.not_mem_nil, or_false] at he
      exact Or.inl ⟨_, he⟩
    case pos =>
    rw [if_pos hs0] at he
    cases h1 : o 1 with
    | error e1 =>
      simp only [h1] at he
      simp only [List.mem_cons, List.not_mem_nil, or_false] at he
      rcases he with he | he
      · exact Or.inl ⟨_, he⟩
      · exact Or.inl ⟨_, he⟩
    | ok r1 =>
      simp only [h1] at he
      by_cases hs1 : okStatus r1 = true
      case neg =>
        rw [if_neg hs1] at he
        simp only [List.mem_cons, List.not_mem_nil, or_false] at he
        rcases he with he | he
        · exact Or.inl ⟨_, he⟩
        · exact Or.inl ⟨_, he⟩
      case pos =>
      rw [if_pos hs1] at he
      have pollCase : e ∈ (pollTrace o (jsStr r1.task_id) 2 30).1 →
          (∃ r, e = .req r) ∨ e = .sleep 1000 := by
        intro hmem
        rcases pollTrace_events o (jsStr r1.task_id) 30 2 e hmem with h | h
        · exact Or.inl ⟨_, h⟩
        · exact Or.inr h
      cases hp : (pollTrace o (jsStr r1.task_id) 2 30).2 with
      | netErr e2 =>
        simp only [hp] at he
        simp only [List.mem_cons] at he
        rcases he with he | he | he
        · exact Or.inl ⟨_, he⟩
        · exact Or.inl ⟨_, he⟩
        · exact pollCase he
      | failedResp r =>
        simp only [hp] at he
        simp only [List.mem_cons] at he
        rcases he with he | he | he
        · exact Or.inl ⟨_, he⟩
        · exact Or.inl ⟨_, he⟩
        · exact pollCase he
      | timeout =>
        simp only [hp] at he
        simp only [List.mem_cons] at he
        rcases he with he | he | he
        · exact Or.inl ⟨_, he⟩
        · exact Or.inl ⟨_, he⟩
        · exact pollCase he
      | ok a =>
        simp only [hp] at he
        cases h2 : o (2 + reqCount (pollTrace o (jsStr r1.task_id) 2 30).1) with
        | error e2 =>
          simp only [h2] at he
          simp only [List.mem_cons, List.mem_append, List.not_mem_nil, or_false] at he
          rcases he with (he | he | he) | he
          · exact Or.inl ⟨_, he⟩
          · exact Or.inl ⟨_, he⟩
          · exact pollCase he
          · exact Or.inl ⟨_, he⟩
        | ok r2 =>
          simp only [h2] at he
          by_cases hs2 : okStatus r2 = true
          case pos =>
            rw [if_pos hs2] at he
            simp only [List.mem_cons, List.mem_append, List.not_mem_nil, or_false] at he
            rcases he with (he | he | he) | he
            · exact Or.inl ⟨_, he⟩
            · exact Or.inl ⟨_, he⟩
            · exact pollCase he
            · exact Or.inl ⟨_, he⟩
          case neg =>
            rw [if_neg hs2] at he
            simp only [List.mem_cons, List.mem_append, List.not_mem_nil, or_false] at he
            rcases he with (he | he | he) | he
            · exact Or.inl ⟨_, he⟩
            · exact Or.inl ⟨_, he⟩
            · exact pollCase he
            · exact Or.inl ⟨_, he⟩

/-- C3: polling is linear with no retry or backoff: every timer wait in the
flow trace is exactly 1000 ms, the poll segment strictly alternates one
request then one 1000 ms sleep, and a failed request is always the last
request of the trace, its error becoming the outcome (no request is ever
reissued). -/
theorem polling_linear_no_retry :
    (∀ (input : TestInput) (o : Nat → Except String Resp) (d : Nat),
        Event.sleep d ∈ (runFlow input o).1 → d = 1000) ∧
    (∀ (o : Nat → Except String Resp) (t : String) (b fuel : Nat),
        pollShape (pollTrace o t b fuel).1 = true) ∧
    (∀ (input : TestInput) (o : Nat → Except String Resp) (j : Nat) (e : String),
        j < reqCount (runFlow input o).1 → o j = .error e →
        reqCount (runFlow input o).1 = j + 1 ∧ (runFlow input o).2 = .error e) := by
  refine ⟨?_, fun o t b fuel => pollTrace_shape o t fuel b, ?_⟩
  · intro input o d hd
    rcases runFlow_events input o _ hd with ⟨r, hr⟩ | hr
    · exact absurd hr (by simp)
    · injection hr
  · intro input o j e hj hOj
    cases h0 : o 0 with
    | error e0 =>
      simp only [runFlow, h0] at hj ⊢
      simp only [reqCount] at hj ⊢
      have hj0 : j = 0 := by omega
      subst hj0
      rw [h0] at hOj
      simp at hOj
      subst hOj
      exact ⟨rfl, rfl⟩
    | ok r0 =>
      simp only [runFlow, h0] at hj ⊢
      by_cases hs0 : okStatus r0 = true
      case neg =>
        rw [if_neg hs0] at hj ⊢
        simp only [reqCount] at hj ⊢
        have hj0 : j = 0 := by omega
        subst hj0
        rw [h0] at hOj
        simp at hOj
      case pos =>
      rw [if_pos hs0] at hj ⊢
      cases h1 : o 1 with
      | error e1 =>
        simp only [h1] at hj ⊢
        simp only [reqCount] at hj ⊢
        have : j = 0 ∨ j = 1 := by omega
        rcases this with hj0 | hj1
        · subst hj0; rw [h0] at hOj; simp at hOj
        · subst hj1; rw [h1] at hOj; simp at hOj
          subst hOj; exact ⟨rfl, rfl⟩
      | ok r1 =>
        simp only [h1] at hj ⊢
        by_cases hs1 : okStatus r1 = true
        case neg =>
          rw [if_neg hs1] at hj ⊢
          simp only [reqCount] at hj ⊢
          have : j = 0 ∨ j = 1 := by omega
          rcases this with hj0 | hj1
          · subst hj0; rw [h0] at hOj; simp at hOj
          · subst hj1; rw [h1] at hOj; simp at hOj
        case pos =>
        rw [if_pos hs1] at hj ⊢
        cases hp : (pollTrace o (jsStr r1.task_id) 2 30).2 with
        | netErr e2 =>
          simp only [hp] at hj ⊢
          simp only [reqCount] at hj ⊢
          rcases j with _ | _ | j2
          · rw [h0] at hOj; simp at hOj
          · rw [h1] at hOj; simp at hOj
          · have hOj2 : o (2 + j2) = .error e := by
              rw [show 2 + j2 = j2 + 1 + 1 by omega]; exact hOj
            have hlt : j2 < reqCount (pollTrace o (jsStr r1.task_id) 2 30).1 := by omega
            obtain ⟨hres, hcnt⟩ := pollTrace_err o (jsStr r1.task_id) 30 2 j2 e hlt hOj2
            rw [hp] at hres
            injection hres with he2
            subst he2
            exact ⟨by omega, rfl⟩
        | failedResp r =>
          simp only [hp] at hj ⊢
          simp only [reqCount] at hj ⊢
          rcases j with _ | _ | j2
          · rw [h0] at hOj; simp at hOj
          · rw [h1] at hOj; simp at hOj
          · have hOj2 : o (2 + j2) = .error e := by
              rw [show 2 + j2 = j2 + 1 + 1 by omega]; exact hOj
            have hlt : j2 < reqCount (pollTrace o (jsStr r1.task_id) 2 30).1 := by omega
            obtain ⟨hres, -⟩ := pollTrace_err o (jsStr r1.task_id) 30 2 j2 e hlt hOj2
            rw [hp] at hres
            exact absurd hres (by simp)
        | timeout =>
          simp only [hp] at hj ⊢
          simp only [reqCount] at hj ⊢
          rcases j with _ | _ | j2
          · rw [h0] at hOj; simp at hOj
          · rw [h1] at hOj; simp at hOj
          · have hOj2 : o (2 + j2) = .error e := by
              rw [show 2 + j2 = j2 + 1 + 1 by omega]; exact hOj
            have hlt : j2 < reqCount (pollTrace o (jsStr r1.task_id) 2 30).1 := by omega
            obtain ⟨hres, -⟩ := pollTrace_err o (jsStr r1.task_id) 30 2 j2 e hlt hOj2
            rw [hp] at hres
            exact absurd hres (by simp)
        | ok a =>
          simp only [hp] at hj ⊢
          cases h2 : o (2 + reqCount (pollTrace o (jsStr r1.task_id) 2 30).1) with
          | error e2 =>
            simp only [h2] at hj ⊢
            simp only [List.append_eq, reqCount, reqCount_append] at hj ⊢
            rcases j with _ | _ | j2
            · rw [h0] at hOj; simp at hOj
            · rw [h1] at hOj; simp at hOj
            · by_cases hl : j2 < reqCount (pollTrace o (jsStr r1.task_id) 2 30).1
              · have hOj2 : o (2 + j2) = .error e := by
                  rw [show 2 + j2 = j2 + 1 + 1 by omega]; exact hOj
                obtain ⟨hres, -⟩ := pollTrace_err o (jsStr r1.task_id) 30 2 j2 e hl hOj2
                rw [hp] at hres
                exact absurd hres (by simp)
              · have hje : j2 = reqCount (pollTrace o (jsStr r1.task_id) 2 30).1 := by omega
                have h2e : o (j2 + 1 + 1) = .error e2 := by
                  rw [show j2 + 1 + 1 = 2 + j2 by omega, hje]; exact h2
                rw [h2e] at hOj
                simp at hOj
                subst hOj
                exact ⟨by omega, rfl⟩
          | ok r2 =>
            simp only [h2] at hj ⊢
            by_cases hs2 : okStatus r2 = true
            case pos =>
              rw [if_pos hs2] at hj ⊢
              simp only [List.append_eq, reqCount, reqCount_append] at hj ⊢
              rcases j with _ | _ | j2
              · rw [h0] at hOj; simp at hOj
              · rw [h1] at hOj; simp at hOj
              · by_cases hl : j2 < reqCount (pollTrace o (jsStr r1.task_id) 2 30).1
                · have hOj2 : o (2 + j2) = .error e := by
                    rw [show 2 + j2 = j2 + 1 + 1 by omega]; exact hOj
                  obtain ⟨hres, -⟩ := pollTrace_err o (jsStr r1.task_id) 30 2 j2 e hl hOj2
                  rw [hp] at hres
                  exact absurd hres (by simp)
                · have hje : j2 = reqCount (pollTrace o (jsStr r1.task_id) 2 30).1 := by omega
                  have h2e : o (j2 + 1 + 1) = .ok r2 := by
                    rw [show j2 + 1 + 1 = 2 + j2 by omega, hje]; exact h2
                  rw [h2e] at hOj
                  simp at hOj
            case neg =>
              rw [if_neg hs2] at hj ⊢
              simp only [List.append_eq, reqCount, reqCount_append] at hj ⊢
              rcases j with _ | _ | j2
              · rw [h0] at hOj; simp at hOj
              · rw [h1] at hOj; simp at hOj
              · by_cases hl : j2 < reqCount (pollTrace o (jsStr r1.task_id) 2 30).1
                · have hOj2 : o (2 + j2) = .error e := by
                    rw [show 2 + j2 = j2 + 1 + 1 by omega]; exact hOj
                  obtain ⟨hres, -⟩ := pollTrace_err o (jsStr r1.task_id) 30 2 j2 e hl hOj2
                  rw [hp] at hres
                  exact absurd hres (by simp)
                · have hje : j2 = reqCount (pollTrace o (jsStr r1.task_id) 2 30).1 := by omega
                  have h2e : o (j2 + 1 + 1) = .ok r2 := by
                    rw [show j2 + 1 + 1 = 2 + j2 by omega, hje]; exact h2
                  rw [h2e] at hOj
                  simp at hOj

/-- Witness for C3: on a concrete oracle that fails the second request,
the flow stops after exactly two requests with that error. -/
theorem polling_linear_no_retry_witness :
    reqCount (runFlow testInput
        (fun n => if n = 1 then .error "boom" else .ok ⟨200, some "S", none, none, none⟩)).1 =
      2 ∧
    (runFlow testInput
        (fun n => if n = 1 then .error "boom" else .ok ⟨200, some "S", none, none, none⟩)).2 =
      .error "boom" := by
  exact polling_linear_no_retry.2.2 testInput
    (fun n => if n = 1 then .error "boom" else .ok ⟨200, some "S", none, none, none⟩)
    1 "boom" (by norm_num [runFlow, reqCount, pollTrace]) rfl

theorem runFlow_reqs_spec (input : TestInput) (o : Nat → Except String Resp) :
    ∀ r, Event.req r ∈ (runFlow input o).1 →
      r = sessionReq input ∨
      (∃ r0, o 0 = .ok r0 ∧ okStatus r0 = true ∧ r = artifactReq input r0.session_id) ∨
      (∃ r1, o 1 = .ok r1 ∧ okStatus r1 = true ∧ r = statusReq (jsStr r1.task_id)) ∨
      (∃ r0 r1 a, o 0 = .ok r0 ∧ okStatus r0 = true ∧ o 1 = .ok r1 ∧ okStatus r1 = true ∧
        (pollTrace o (jsStr r1.task_id) 2 30).2 = .ok a ∧
        r = rankReq input r0.session_id a) := by
  intro r he
  cases h0 : o 0 with
  | error e0 =>
    simp only [runFlow, h0] at he
    simp only [List.mem_cons, List.not_mem_nil, or_false] at he
    injection he with he2
    exact Or.inl he2
  | ok r0 =>
    simp only [runFlow, h0] at he
    by_cases hs0 : okStatus r0 = true
    case neg =>
      rw [if_neg hs0] at he
      simp only [List.mem_cons, List.not_mem_nil, or_false] at he
      injection he with he2
      exact Or.inl he2
    case pos =>
    rw [if_pos hs0] at he
    cases h1 : o 1 with
    | error e1 =>
      simp only [h1] at he
      simp only [List.mem_cons, List.not_mem_nil, or_false] at he
      rcases he with he | he
      · injection he with he2; exact Or.inl he2
      · injection he with he2; exact Or.inr (Or.inl ⟨r0, rfl, hs0, he2⟩)
    | ok r1 =>
      simp only [h1] at he
      by_cases hs1 : okStatus r1 = true
      case neg =>
        rw [if_neg hs1] at he
        simp only [List.mem_cons, List.not_mem_nil, or_false] at he
        rcases he with he | he
        · injection he with he2; exact Or.inl he2
        · injection he with he2; exact Or.inr (Or.inl ⟨r0, rfl, hs0, he2⟩)
      case pos =>
      rw [if_pos hs1] at he
      have pollCase : Event.req r ∈ (pollTrace o (jsStr r1.task_id) 2 30).1 →
          r = statusReq (jsStr r1.task_id) := by
        intro hmem
        rcases pollTrace_events o (jsStr r1.task_id) 30 2 _ hmem with h | h
        · injection h
        · exact absurd h (by simp)
      cases hp : (pollTrace o (jsStr r1.task_id) 2 30).2 with
      | netErr e2 =>
        simp only [hp] at he
        simp only [List.mem_cons] at he
        rcases he with he | he | he
        · injection he with he2; exact Or.inl he2
        · injection he with he2; exact Or.inr (Or.inl ⟨r0, rfl, hs0, he2⟩)
        · exact Or.inr (Or.inr (Or.inl ⟨r1, rfl, hs1, pollCase he⟩))
      | failedResp rr =>
        simp only [hp] at he
        simp only [List.mem_cons] at he
        rcases he with he | he | he
        · injection he with he2; exact Or.inl he2
        · injection he with he2; exact Or.inr (Or.inl ⟨r0, rfl, hs0, he2⟩)
        · exact Or.inr (Or.inr (Or.inl ⟨r1, rfl, hs1, pollCase he⟩))
      | timeout =>
        simp only [hp] at he
        simp only [List.mem_cons] at he
        rcases he with he | he | he
        · injection he with he2; exact Or.inl he2
        · injection he with he2; exact Or.inr (Or.inl ⟨r0, rfl, hs0, he2⟩)
        · exact Or.inr (Or.inr (Or.inl ⟨r1, rfl, hs1, pollCase he⟩))
      | ok a =>
        simp only [hp] at he
        cases h2 : o (2 + reqCount (pollTrace o (jsStr r1.task_id) 2 30).1) with
        | error e2 =>
          simp only [h2] at he
          simp only [List.mem_cons, List.mem_append, List.not_mem_nil, or_false] at he
          rcases he with (he | he | he) | he
          · injection he with he2; exact Or.inl he2
          · injection he with he2; exact Or.inr (Or.inl ⟨r0, rfl, hs0, he2⟩)
          · exact Or.inr (Or.inr (Or.inl ⟨r1, rfl, hs1, pollCase he⟩))
          · injection he with he2
            exact Or.inr (Or.inr (Or.inr ⟨r0, r1, a, rfl, hs0, rfl, hs1, hp, he2⟩))
        | ok r2 =>
          simp only [h2] at he
          by_cases hs2 : okStatus r2 = true
          case pos =>
            rw [if_pos hs2] at he
            simp only [List.mem_cons, List.mem_append, List.not_mem_nil, or_false] at he
            rcases he with (he | he | he) | he
            · injection he with he2; exact Or.inl he2
            · injection he with he2; exact Or.inr (Or.inl ⟨r0, rfl, hs0, he2⟩)
            · exact Or.inr (Or.inr (Or.inl ⟨r1, rfl, hs1, pollCase he⟩))
            · injection he with he2
              exact Or.inr (Or.inr (Or.inr ⟨r0, r1, a, rfl, hs0, rfl, hs1, hp, he2⟩))
          case neg =>
            rw [if_neg hs2] at he
            simp only [List.mem_cons, List.mem_append, List.not_mem_nil, or_false] at he
            rcases he with (he | he | he) | he
            · injection he with he2; exact Or.inl he2
            · injection he with he2; exact Or.inr (Or.inl ⟨r0, rfl, hs0, he2⟩)
            · exact Or.inr (Or.inr (Or.inl ⟨r1, rfl, hs1, pollCase he⟩))
            · injection he with he2
              exact Or.inr (Or.inr (Or.inr ⟨r0, r1, a, rfl, hs0, rfl, hs1, hp, he2⟩))

/-- A concrete oracle for which every step of the flow succeeds at once:
the session id is S, the artifact task id T, the artifact id A and the
rank task id R. -/
def happyOracle : Nat → Except String Resp := fun n =>
  if n = 0 then .ok ⟨200, some "S", none, none, none⟩
  else if n = 1 then .ok ⟨200, none, some "T", none, none⟩
  else if n = 2 then .ok ⟨200, none, none, some "A", none⟩
  else .ok ⟨201, none, some "R", none, none⟩

/-- C5: every POST /tasks submission of the flow carries exactly the
session_id field returned by the initial create-session response; no task
is ever submitted before that response arrived with an OK status or with a
different session id. -/
theorem task_submissions_carry_session_id :
    ∀ (input : TestInput) (o : Nat → Except String Resp) (r : Req) (tb : TaskBody),
      Event.req r ∈ (runFlow input o).1 → taskBodyOf r = some tb →
      ∃ r0, o 0 = .ok r0 ∧ okStatus r0 = true ∧ tb.session_id = r0.session_id := by
  intro input o r tb hmem htb
  rcases runFlow_reqs_spec input o r hmem with h | ⟨r0, h0, hs0, h⟩ | ⟨r1, h1, hs1, h⟩ |
    ⟨r0, r1, a, h0, hs0, h1, hs1, hp, h⟩
  · subst h; simp [taskBodyOf, sessionReq] at htb
  · subst h
    simp only [taskBodyOf, artifactReq] at htb
    injection htb with htb2
    exact ⟨r0, h0, hs0, by rw [← htb2]⟩
  · subst h; simp [taskBodyOf, statusReq] at htb
  · subst h
    simp only [taskBodyOf, rankReq] at htb
    injection htb with htb2
    exact ⟨r0, h0, hs0, by rw [← htb2]⟩

/-- Witness for C5: on the happy oracle the artifact-creating task
submission carries the session id S returned by create-session. -/
theorem task_submissions_carry_session_id_witness :
    ∃ r0, happyOracle 0 = .ok r0 ∧ okStatus r0 = true ∧
      (⟨some "S", .create_group TEST_DATA⟩ : TaskBody).session_id = r0.session_id := by
  refine task_submissions_carry_session_id testInput happyOracle
    (artifactReq testInput (some "S")) ⟨some "S", .create_group TEST_DATA⟩ ?_ rfl
  rw [show (runFlow testInput happyOracle).1 =
    [Event.req (sessionReq testInput), Event.req (artifactReq testInput (some "S")),
     Event.req (statusReq "T"), Event.req (rankReq testInput (some "S") "A")] from rfl]
  exact List.mem_cons_of_mem _ (List.mem_cons_self _ _)

/-- C4: a deep_rank submission occurs only after the poll step obtained a
truthy artifact id, and its body lists exactly that artifact id as the sole
input artifact, with an empty context_artifacts list. -/
theorem rank_task_references_artifact :
    ∀ (input : TestInput) (o : Nat → Except String Resp) (r : Req) (ia ca : List String),
      Event.req r ∈ (runFlow input o).1 → rankArtifactsOf r = some (ia, ca) →
      ∃ a r1, o 1 = .ok r1 ∧ okStatus r1 = true ∧
        (pollTrace o (jsStr r1.task_id) 2 30).2 = .ok a ∧ ia = [a] ∧ ca = [] := by
  intro input o r ia ca hmem har
  rcases runFlow_reqs_spec input o r hmem with h | ⟨r0, h0, hs0, h⟩ | ⟨r1, h1, hs1, h⟩ |
    ⟨r0, r1, a, h0, hs0, h1, hs1, hp, h⟩
  · subst h; simp [rankArtifactsOf, sessionReq] at har
  · subst h; simp [rankArtifactsOf, artifactReq] at har
  · subst h; simp [rankArtifactsOf, statusReq] at har
  · subst h
    simp only [rankArtifactsOf, rankReq] at har
    injection har with har2
    refine ⟨a, r1, h1, hs1, hp, ?_, ?_⟩
    · exact congrArg Prod.fst har2.symm
    · exact congrArg Prod.snd har2.symm

/-- Witness for C4: on the happy oracle the deep_rank submission lists
exactly the artifact id A obtained from polling. -/
theorem rank_task_references_artifact_witness :
    ∃ a r1, happyOracle 1 = .ok r1 ∧ okStatus r1 = true ∧
      (pollTrace happyOracle (jsStr r1.task_id) 2 30).2 = .ok a ∧
      ["A"] = [a] ∧ ([] : List String) = [] := by
  refine rank_task_references_artifact testInput happyOracle
    (rankReq testInput (some "S") "A") ["A"] [] ?_ rfl
  rw [show (runFlow testInput happyOracle).1 =
    [Event.req (sessionReq testInput), Event.req (artifactReq testInput (some "S")),
     Event.req (statusReq "T"), Event.req (rankReq testInput (some "S") "A")] from rfl]
  exact List.mem_cons_of_mem _ (List.mem_cons_of_mem _ (List.mem_cons_of_mem _
    (List.mem_cons_self _ _)))

/-- Counterexample to C1: on an oracle where every request succeeds at
once, the flow completes successfully, yet its final request is a further
POST /tasks task submission (the deep_rank task), not a fetch of results:
the only GET requests the whole workflow ever issues are the status polls,
so there is no fetch-results step. -/
theorem flow_last_step_not_fetch_results :
    reqsOf (runFlow testInput happyOracle).1 =
      [sessionReq testInput, artifactReq testInput (some "S"), statusReq "T",
       rankReq testInput (some "S") "A"] ∧
    (runFlow testInput happyOracle).2 = .ok ⟨some "S", "A", some "R"⟩ ∧
    ((reqsOf (runFlow testInput happyOracle).1).getLast?).map Req.method = some "POST" ∧
    ((reqsOf (runFlow testInput happyOracle).1).getLast?).map Req.endpoint = some "/tasks" ∧
    (∀ r ∈ reqsOf (runFlow testInput happyOracle).1,
      r.method = "GET" → reqKind r = .kStatus) := by
  refine ⟨rfl, rfl, rfl, rfl, ?_⟩
  intro r hr hm
  rw [show reqsOf (runFlow testInput happyOracle).1 =
    [sessionReq testInput, artifactReq testInput (some "S"), statusReq "T",
     rankReq testInput (some "S") "A"] from rfl] at hr
  simp only [List.mem_cons, List.not_mem_nil, or_false] at hr
  rcases hr with rfl | rfl | rfl | rfl
  · exact absurd hm (by simp [sessionReq])
  · exact absurd hm (by simp [artifactReq])
  · rfl
  · exact absurd hm (by simp [rankReq])

/-- C1 amended: the flow is a fixed sequential orchestration; the kinds of
the requests it issues always form a prefix of create-session, then
create-artifact, then n status polls (n at most 30), then one deep_rank
task submission, and on a successful run the whole sequence is realised
with at least one poll — there is no separate fetch-results step. -/
theorem flow_fixed_order_amended :
    ∀ (input : TestInput) (o : Nat → Except String Resp),
      ∃ n m, n ≤ 30 ∧
        List.map reqKind (reqsOf (runFlow input o).1) =
          ((([StepKind.kSession, StepKind.kArtifact] ++ List.replicate n StepKind.kStatus) ++ [StepKind.kRank]).take m) ∧
        (∀ fo, (runFlow input o).2 = .ok fo →
          1 ≤ n ∧
          List.map reqKind (reqsOf (runFlow input o).1) =
            (([StepKind.kSession, StepKind.kArtifact] ++ List.replicate n StepKind.kStatus) ++ [StepKind.kRank])) := by
  intro input o
  cases h0 : o 0 with
  | error e0 =>
    refine ⟨0, 1, by omega, ?_, ?_⟩
    · simp only [runFlow, h0, reqsOf, List.map]
      rfl
    · intro fo hfo
      simp only [runFlow, h0] at hfo
      exact absurd hfo (by simp)
  | ok r0 =>
    by_cases hs0 : okStatus r0 = true
    case neg =>
      refine ⟨0, 1, by omega, ?_, ?_⟩
      · simp only [runFlow, h0]
        rw [if_neg hs0]
        simp only [reqsOf, List.map]
        rfl
      · intro fo hfo
        simp only [runFlow, h0] at hfo
        rw [if_neg hs0] at hfo
        exact absurd hfo (by simp)
    case pos =>
    cases h1 : o 1 with
    | error e1 =>
      refine ⟨0, 2, by omega, ?_, ?_⟩
      · simp only [runFlow, h0, h1]
        rw [if_pos hs0]
        simp only [h1, reqsOf, List.map]
        rfl
      · intro fo hfo
        simp only [runFlow, h0] at hfo
        rw [if_pos hs0] at hfo
        simp only [h1] at hfo
        exact absurd hfo (by simp)
    | ok r1 =>
      by_cases hs1 : okStatus r1 = true
      case neg =>
        refine ⟨0, 2, by omega, ?_, ?_⟩
        · simp only [runFlow, h0]
          rw [if_pos hs0]
          simp only [h1]
          rw [if_neg hs1]
          simp only [reqsOf, List.map]
          rfl
        · intro fo hfo
          simp only [runFlow, h0] at hfo
          rw [if_pos hs0] at hfo
          simp only [h1] at hfo
          rw [if_neg hs1] at hfo
          exact absurd hfo (by simp)
      case pos =>
      have hle := pollTrace_reqCount_le o (jsStr r1.task_id) 30 2
      have hreqs := pollTrace_reqs o (jsStr r1.task_id) 30 2
      have hmapPoll : List.map reqKind (reqsOf (pollTrace o (jsStr r1.task_id) 2 30).1) =
          List.replicate (reqCount (pollTrace o (jsStr r1.task_id) 2 30).1) .kStatus := by
        rw [hreqs, List.map_replicate]
        rfl
      have htakePart : ∀ n : Nat,
          ((([StepKind.kSession, StepKind.kArtifact] ++ List.replicate n StepKind.kStatus) ++ [StepKind.kRank]).take
            (2 + n)) =
          ([StepKind.kSession, StepKind.kArtifact] ++ List.replicate n StepKind.kStatus) := by
        intro n
        rw [show 2 + n = ([StepKind.kSession, StepKind.kArtifact] ++ List.replicate n StepKind.kStatus).length
          from by simp [List.length_append, List.length_replicate]; omega]
        exact List.take_left _ _
      cases hp : (pollTrace o (jsStr r1.task_id) 2 30).2 with
      | netErr e2 =>
        refine ⟨reqCount (pollTrace o (jsStr r1.task_id) 2 30).1,
          2 + reqCount (pollTrace o (jsStr r1.task_id) 2 30).1, hle, ?_, ?_⟩
        · rw [htakePart]
          simp only [runFlow, h0]
          rw [if_pos hs0]
          simp only [h1]
          rw [if_pos hs1]
          simp only [hp, reqsOf, List.map, hmapPoll]
          rfl
        · intro fo hfo
          simp only [runFlow, h0] at hfo
          rw [if_pos hs0] at hfo
          simp only [h1] at hfo
          rw [if_pos hs1] at hfo
          simp only [hp] at hfo
          exact absurd hfo (by simp)
      | failedResp rr =>
        refine ⟨reqCount (pollTrace o (jsStr r1.task_id) 2 30).1,
          2 + reqCount (pollTrace o (jsStr r1.task_id) 2 30).1, hle, ?_, ?_⟩
        · rw [htakePart]
          simp only [runFlow, h0]
          rw [if_pos hs0]
          simp only [h1]
          rw [if_pos hs1]
          simp only [hp, reqsOf, List.map, hmapPoll]
          rfl
        · intro fo hfo
          simp only [runFlow, h0] at hfo
          rw [if_pos hs0] at hfo
          simp only [h1] at hfo
          rw [if_pos hs1] at hfo
          simp only [hp] at hfo
          exact absurd hfo (by simp)
      | timeout =>
        refine ⟨reqCount (pollTrace o (jsStr r1.task_id) 2 30).1,
          2 + reqCount (pollTrace o (jsStr r1.task_id) 2 30).1, hle, ?_, ?_⟩
        · rw [htakePart]
          simp only [runFlow, h0]
          rw [if_pos hs0]
          simp only [h1]
          rw [if_pos hs1]
          simp only [hp, reqsOf, List.map, hmapPoll]
          rfl
        · intro fo hfo
          simp only [runFlow, h0] at hfo
          rw [if_pos hs0] at hfo
          simp only [h1] at hfo
          rw [if_pos hs1] at hfo
          simp only [hp] at hfo
          exact absurd hfo (by simp)
      | ok a =>
        obtain ⟨j, hj, -, -, hc⟩ := pollTrace_ok o (jsStr r1.task_id) 30 2 a hp
        have hn1 : 1 ≤ reqCount (pollTrace o (jsStr r1.task_id) 2 30).1 := by omega
        have hfull : List.map reqKind (reqsOf (runFlow input o).1) =
            (([StepKind.kSession, StepKind.kArtifact] ++
              List.replicate (reqCount (pollTrace o (jsStr r1.task_id) 2 30).1) StepKind.kStatus) ++
              [StepKind.kRank]) := by
          cases h2 : o (2 + reqCount (pollTrace o (jsStr r1.task_id) 2 30).1) with
          | error e2 =>
            simp only [runFlow, h0]
            rw [if_pos hs0]
            simp only [h1]
            rw [if_pos hs1]
            simp only [hp, h2]
            simp only [reqsOf, reqsOf_append, List.map, List.map_append, hmapPoll]
            simp [reqKind, sessionReq, artifactReq, rankReq, List.append_assoc, reqsOf,
              reqsOf_append, List.map_append, hmapPoll, List.append_eq]
          | ok r2 =>
            by_cases hs2 : okStatus r2 = true
            case pos =>
              simp only [runFlow, h0]
              rw [if_pos hs0]
              simp only [h1]
              rw [if_pos hs1]
              simp only [hp, h2]
              rw [if_pos hs2]
              simp only [reqsOf, reqsOf_append, List.map, List.map_append, hmapPoll]
              simp [reqKind, sessionReq, artifactReq, rankReq, List.append_assoc, reqsOf,
                reqsOf_append, List.map_append, hmapPoll, List.append_eq]
            case neg =>
              simp only [runFlow, h0]
              rw [if_pos hs0]
              simp only [h1]
              rw [if_pos hs1]
              simp only [hp, h2]
              rw [if_neg hs2]
              simp only [reqsOf, reqsOf_append, List.map, List.map_append, hmapPoll]
              simp [reqKind, sessionReq, artifactReq, rankReq, List.append_assoc, reqsOf,
                reqsOf_append, List.map_append, hmapPoll, List.append_eq]
        refine ⟨reqCount (pollTrace o (jsStr r1.task_id) 2 30).1,
          (([StepKind.kSession, StepKind.kArtifact] ++
            List.replicate (reqCount (pollTrace o (jsStr r1.task_id) 2 30).1)
              StepKind.kStatus) ++ [StepKind.kRank]).length, hle, ?_, ?_⟩
        · rw [List.take_length]
          exact hfull
        · intro fo hfo
          exact ⟨hn1, hfull⟩

/-- Witness for C1 (amended): on the happy-path oracle the flow succeeds,
so the success clause of the amended theorem is realised at a concrete
input, the full request-kind sequence with one status poll. -/
theorem flow_fixed_order_amended_witness :
    (∃ n m, n ≤ 30 ∧
      List.map reqKind (reqsOf (runFlow testInput happyOracle).1) =
        ((([StepKind.kSession, StepKind.kArtifact] ++
           List.replicate n StepKind.kStatus) ++ [StepKind.kRank]).take m) ∧
      (∀ fo, (runFlow testInput happyOracle).2 = .ok fo →
        1 ≤ n ∧
        List.map reqKind (reqsOf (runFlow testInput happyOracle).1) =
          (([StepKind.kSession, StepKind.kArtifact] ++
            List.replicate n StepKind.kStatus) ++ [StepKind.kRank]))) ∧
    (runFlow testInput happyOracle).2 = .ok ⟨some "S", "A", some "R"⟩ :=
  ⟨flow_fixed_order_amended testInput happyOracle, rfl⟩

/-!
## Make.com parameter validation
(scripts/test-makecom-validation.ts and scripts/test-module.ts)
-/

/-- A module parameter declaration, as read from a module imljson file. -/
structure MkParam where
  name : String
  type : String
  required : Bool := false
  default : Option JVal := none
  spec : Option JVal := none

/-- The result record of validateMakecomParameter. -/
structure ValidationResult where
  valid : Bool
  errors : List String
  warnings : List String

/-- Whether the supplied value is JavaScript undefined or null
(the required-parameter check of validateMakecomParameter). -/
def isMissing : Option JVal → Bool
  | none => true
  | some .null => true
  | some _ => false

/-- The per-item warnings of the collection-spec loop for array
parameters: an item that is not an object (null passes the JavaScript
typeof test) draws a warning. -/
def collectionItemWarnings (name : String) : List JVal → Nat → List String
  | [], _ => []
  | x :: xs, i =>
    (match x with
     | .obj _ => []
     | .null => []
     | _ => ["Array item " ++ toString i ++ " in \"" ++ name ++
             "\" should be an object (collection)"]) ++
    collectionItemWarnings name xs (i + 1)

/-- The spec-dependent warnings of the array branch of
validateMakecomParameter. -/
def arraySpecWarnings (param : MkParam) (xs : List JVal) : List String :=
  match param.spec with
  | none => []
  | some sp =>
    if jsTruthy sp then
      match sp with
      | .arr l =>
        if l.length > 0 then
          ["Parameter \"" ++ param.name ++
           "\" has array spec - Make.com will validate each item"]
        else []
      | .obj fields =>
        (match assocGet fields "type" with
         | some (.str "collection") => collectionItemWarnings param.name xs 0
         | _ => [])
      | _ => []
    else []

/-- validateMakecomParameter from scripts/test-makecom-validation.ts:
the required check, then the type switch (text rejects arrays and non-null
objects; array rejects non-arrays and warns on specs; boolean and unknown
types only warn; select accepts anything). -/
def validateMakecomParameter (param : MkParam) (value : Option JVal) : ValidationResult :=
  if param.required && isMissing value then
    ⟨false, ["Required parameter \"" ++ param.name ++ "\" is missing"], []⟩
  else if param.type = "text" then
    match value with
    | some (.arr _) =>
      ⟨false, ["Parameter \"" ++ param.name ++
               "\" is type \"text\" but received array/collection. " ++
               "User must use \x7b\x7btoString(variable)\x7d\x7d to convert to JSON string."], []⟩
    | some (.obj _) =>
      ⟨false, ["Parameter \"" ++ param.name ++
               "\" is type \"text\" but received object. " ++
               "User must use \x7b\x7btoString(variable)\x7d\x7d to convert to JSON string."], []⟩
    | _ => ⟨true, [], []⟩
  else if param.type = "array" then
    match value with
    | some (.arr xs) => ⟨true, [], arraySpecWarnings param xs⟩
    | _ =>
      ⟨false, ["Parameter \"" ++ param.name ++ "\" expects array but got " ++
               jsTypeof value], []⟩
  else if param.type = "boolean" then
    match value with
    | some (.bool _) => ⟨true, [], []⟩
    | _ =>
      ⟨true, [], ["Parameter \"" ++ param.name ++ "\" expects boolean but got " ++
                  jsTypeof value]⟩
  else if param.type = "select" then
    ⟨true, [], []⟩
  else
    ⟨true, [], ["Unknown parameter type \"" ++ param.type ++ "\" for \"" ++
                param.name ++ "\""]⟩

/-- The input value of a parameter after the default is applied: the
declared default is used only when the input is undefined. -/
def resolvedValue (param : MkParam) (inputValues : List (String × JVal)) : Option JVal :=
  match assocGet inputValues param.name, param.default with
  | none, some d => some d
  | v, _ => v

/-- The per-parameter conversion of simulateMakecomParameters: text throws
on any value of JavaScript typeof object (null, array, object) and
stringifies the rest; array requires an array; boolean coerces by
truthiness; select and unknown types store the raw value. -/
def simulateEntry (param : MkParam) (value : Option JVal) : Except String (Option JVal) :=
  if param.type = "text" then
    match value with
    | some v =>
      if isObjectType v then
        .error ("Parameter \"" ++ param.name ++
          "\" is type \"text\" but received a collection/array. Use toString() in mapping.")
      else .ok (some (.str (jsToString v)))
    | none => .ok (some (.str "undefined"))
  else if param.type = "array" then
    match value with
    | some (.arr xs) => .ok (some (.arr xs))
    | _ =>
      .error ("Parameter \"" ++ param.name ++ "\" expects array but got " ++ jsTypeof value)
  else if param.type = "boolean" then
    .ok (some (.bool (match value with | none => false | some v => jsTruthy v)))
  else
    .ok value

/-- simulateMakecomParameters from scripts/test-module.ts: processes the
declared parameters in order, applying defaults and the type switch; the
first throwing parameter aborts the whole simulation with its message. -/
def simulateMakecomParameters :
    List MkParam → List (String × JVal) → Except String (List (String × Option JVal))
  | [], _ => .ok []
  | p :: ps, inputValues =>
    match simulateEntry p (resolvedValue p inputValues) with
    | .error e => .error e
    | .ok val =>
      (simulateMakecomParameters ps inputValues).map (fun rest => (p.name, val) :: rest)

/-- The JSON string of TEST_INPUTS.jsonString in
scripts/test-makecom-validation.ts (a stringified collection). -/
def TEST_INPUTS_jsonString : String :=
  "[\x7b\"name\":\"OpenAI\",\"description\":\"AI company\"\x7d,\x7b\"name\":\"Stripe\",\"description\":\"Payments\"\x7d]"

/-- C8: a text parameter with a supplied (non-null, non-undefined) value is
rejected by validateMakecomParameter exactly when the value is an array or
an object, and then with a non-empty error list; any string value is
accepted with no errors (in particular a JSON string encoding an array);
and simulateMakecomParameters throws whenever some declared text parameter
resolves to an array or object value. -/
theorem text_param_validation :
    (∀ (p : MkParam) (v : JVal), p.type = "text" → v ≠ .null →
      (((validateMakecomParameter p (some v)).valid = false) ↔
        ((∃ xs, v = .arr xs) ∨ (∃ fs, v = .obj fs))) ∧
      ((validateMakecomParameter p (some v)).valid = false →
        (validateMakecomParameter p (some v)).errors ≠ [])) ∧
    (∀ (p : MkParam) (s : String), p.type = "text" →
      (validateMakecomParameter p (some (.str s))).valid = true ∧
      (validateMakecomParameter p (some (.str s))).errors = []) ∧
    (∀ (ps : List MkParam) (inputs : List (String × JVal)) (p : MkParam),
      p ∈ ps → p.type = "text" →
      ((∃ xs, resolvedValue p inputs = some (.arr xs)) ∨
       (∃ fs, resolvedValue p inputs = some (.obj fs))) →
      ∃ e, simulateMakecomParameters ps inputs = .error e) := by
  have hmain : ∀ (p : MkParam) (v : JVal), p.type = "text" → v ≠ .null →
      (((validateMakecomParameter p (some v)).valid = false) ↔
        ((∃ xs, v = .arr xs) ∨ (∃ fs, v = .obj fs))) ∧
      ((validateMakecomParameter p (some v)).valid = false →
        (validateMakecomParameter p (some v)).errors ≠ []) := by
    intro p v ht hv
    have hmiss : isMissing (some v) = false := by
      cases v with
      | null => exact absurd rfl hv
      | bool b => rfl
      | num n => rfl
      | str s => rfl
      | arr xs => rfl
      | obj fs => rfl
    simp only [validateMakecomParameter, hmiss, Bool.and_false, Bool.false_eq_true,
      if_false, ht, if_pos rfl]
    cases v with
    | null => exact absurd rfl hv
    | bool b => simp
    | num n => simp
    | str s => simp
    | arr xs => simp
    | obj fs => simp
  refine ⟨hmain, ?_, ?_⟩
  · intro p s ht
    have h := hmain p (.str s) ht (by intro h; cases h)
    constructor
    · by_contra hc
      have : (validateMakecomParameter p (some (.str s))).valid = false := by
        cases hval : (validateMakecomParameter p (some (.str s))).valid
        · rfl
        · exact absurd hval hc
      rcases h.1.mp this with ⟨xs, hxs⟩ | ⟨fs, hfs⟩
      · cases hxs
      · cases hfs
    · have hmiss : isMissing (some (JVal.str s)) = false := rfl
      simp only [validateMakecomParameter, hmiss, Bool.and_false, Bool.false_eq_true,
        if_false, ht, if_pos rfl]
      simp
  · intro ps
    induction ps with
    | nil => intro inputs p hp; exact absurd hp (List.not_mem_nil p)
    | cons q qs ih =>
      intro inputs p hp ht hres
      rcases List.mem_cons.mp hp with rfl | hp2
      · have hobj : ∃ v, resolvedValue p inputs = some v ∧ isObjectType v = true := by
          rcases hres with ⟨xs, hxs⟩ | ⟨fs, hfs⟩
          · exact ⟨_, hxs, rfl⟩
          · exact ⟨_, hfs, rfl⟩
        obtain ⟨v, hv, hov⟩ := hobj
        refine ⟨"Parameter \"" ++ p.name ++
          "\" is type \"text\" but received a collection/array. Use toString() in mapping.", ?_⟩
        simp only [simulateMakecomParameters, simulateEntry, ht, if_pos rfl, hv, hov]
        rfl
      · cases hq : simulateEntry q (resolvedValue q inputs) with
        | error e =>
          exact ⟨e, by simp only [simulateMakecomParameters, hq]⟩
        | ok val =>
          obtain ⟨e, he⟩ := ih inputs p hp2 ht hres
          refine ⟨e, ?_⟩
          simp only [simulateMakecomParameters, hq, he]
          rfl

/-- Witness for C8: the TEST_DATA collection is rejected for a text
parameter, while the stringified collection TEST_INPUTS.jsonString is
accepted, and the simulation throws on the collection. -/
theorem text_param_validation_witness :
    (validateMakecomParameter ⟨"inputData", "text", false, none, none⟩
        (some TEST_DATA)).valid = false ∧
    (validateMakecomParameter ⟨"inputData", "text", false, none, none⟩
        (some (.str TEST_INPUTS_jsonString))).valid = true ∧
    (∃ e, simulateMakecomParameters [⟨"inputData", "text", false, none, none⟩]
        [("inputData", TEST_DATA)] = .error e) := by
  refine ⟨?_, ?_, ?_⟩
  · exact (text_param_validation.1 ⟨"inputData", "text", false, none, none⟩ TEST_DATA rfl
      (by simp [TEST_DATA])).1.mpr (Or.inl ⟨_, rfl⟩)
  · exact (text_param_validation.2.1 ⟨"inputData", "text", false, none, none⟩
      TEST_INPUTS_jsonString rfl).1
  · exact text_param_validation.2.2 [⟨"inputData", "text", false, none, none⟩]
      [("inputData", TEST_DATA)] ⟨"inputData", "text", false, none, none⟩
      (List.mem_singleton.mpr rfl) rfl (Or.inl ⟨_, rfl⟩)

/-!
## The IML template processor (processImlTemplate, scripts/test-module.ts)

The source performs four sequential global regex replacements over the
template string: double-brace parameters.key, then temp.key, then
body.key, then parseJSON(expr).  Each replacement is modelled as a fueled
left-to-right scanner over the character list; a matched placeholder is
replaced and scanning resumes after it (the inserted text is not rescanned
within the same pass, exactly as String.replace).
-/

/-- The character class of the regex word escape: ASCII letters, digits
and underscore. -/
def isWordChar (c : Char) : Bool :=
  c.isAlpha || c.isDigit || c == '_'

/-- Whether the second list starts with the first. -/
def startsWithChars : List Char → List Char → Bool
  | [], _ => true
  | _ :: _, [] => false
  | p :: ps, c :: cs => p == c && startsWithChars ps cs

/-- Match one word-form placeholder (two opening braces, the fixed pattern
text, a non-empty word-character key, two closing braces) at the head of
the input; returns the key and the input after the placeholder. -/
def matchWordForm (pat : List Char) (input : List Char) : Option (String × List Char) :=
  if startsWithChars ('\x7b' :: '\x7b' :: pat) input then
    if (input.drop (2 + pat.length)).takeWhile isWordChar = [] then none
    else if startsWithChars ['\x7d', '\x7d']
        ((input.drop (2 + pat.length)).drop
          ((input.drop (2 + pat.length)).takeWhile isWordChar).length) then
      some (String.mk ((input.drop (2 + pat.length)).takeWhile isWordChar),
            ((input.drop (2 + pat.length)).drop
              ((input.drop (2 + pat.length)).takeWhile isWordChar).length).drop 2)
    else none
  else none

/-- One global regex replacement pass for a word-form placeholder: scan
left to right, replacing each match by the rendered value and continuing
after it. -/
def scanWordForm (pat : List Char) (render : String → String) : Nat → List Char → List Char
  | 0, input => input
  | _ + 1, [] => []
  | fuel + 1, c :: cs =>
    match matchWordForm pat (c :: cs) with
    | some (key, rest) => (render key).data ++ scanWordForm pat render fuel rest
    | none => c :: scanWordForm pat render fuel cs

/-- String-level wrapper of one word-form replacement pass. -/
def replaceWordForm (pat : String) (render : String → String) (s : String) : String :=
  String.mk (scanWordForm pat.data render s.data.length s.data)

/-- The template evaluation context of processImlTemplate: the parameters,
temp and body objects, each possibly absent. -/
structure ImlContext where
  parameters : Option (List (String × JVal)) := none
  temp : Option (List (String × JVal)) := none
  body : Option (List (String × JVal)) := none

/-- Optional-chaining property access context.x?.[key]. -/
def ctxGet (m : Option (List (String × JVal))) (k : String) : Option JVal :=
  match m with
  | none => none
  | some l => assocGet l k

/-- The replacement value of a parameters placeholder: JSON.stringify for
values of typeof object, the String() coercion otherwise, and the text
undefined for an absent value (the replacer returns undefined, which
String.replace coerces to that text). -/
def renderParamsValue (context : ImlContext) (key : String) : String :=
  match ctxGet context.parameters key with
  | some v => if isObjectType v then jsonStringify v else jsToString v
  | none => "undefined"

/-- The replacement value of a temp or body placeholder: the value
or-defaulted to the empty string, so any falsy value renders as empty. -/
def renderTempBodyValue (m : Option (List (String × JVal))) (key : String) : String :=
  match ctxGet m key with
  | some v => if jsTruthy v then jsToString v else ""
  | none => ""

/-- Skip JSON whitespace. -/
def skipWs : List Char → List Char
  | [] => []
  | c :: cs => if c = ' ' ∨ c = '\n' ∨ c = '\t' ∨ c = '\r' then skipWs cs else c :: cs

/-- Parse the body of a JSON string after its opening quote, handling the
simple escapes; unicode escapes are not modelled. -/
def parseStringBody : Nat → List Char → Option (String × List Char)
  | 0, _ => none
  | _ + 1, [] => none
  | fuel + 1, c :: cs =>
    if c = '"' then some ("", cs)
    else if c = '\\' then
      match cs with
      | [] => none
      | e :: cs2 =>
        match (if e = '"' then some '"' else if e = '\\' then some '\\'
               else if e = '/' then some '/' else if e = 'n' then some '\n'
               else if e = 't' then some '\t' else if e = 'r' then some '\r'
               else none) with
        | none => none
        | some d => (parseStringBody fuel cs2).map (fun p => (String.mk (d :: p.1.data), p.2))
    else (parseStringBody fuel cs).map (fun p => (String.mk (c :: p.1.data), p.2))

/-- Numeric value of a digit run. -/
def digitsVal (ds : List Char) : Nat :=
  ds.foldl (fun a c => a * 10 + (c.toNat - 48)) 0

/-- Parser mode: a single value, the items of an array after the opening
bracket, or the fields of an object after the opening brace. -/
inductive PJKind where
  | val
  | arrItems
  | objItems

/-- Parser result: a value, a list of values, or a list of fields. -/
inductive PJRes where
  | v (x : JVal)
  | vs (xs : List JVal)
  | fs (fields : List (String × JVal))

/-- A fueled recursive-descent JSON parser modelling JSON.parse over the
JVal fragment (numbers are integers; fractional or exponent syntax is
outside the model). -/
def jsonParseF : Nat → PJKind → List Char → Option (PJRes × List Char)
  | 0, _, _ => none
  | fuel + 1, .val, input =>
    match skipWs input with
    | [] => none
    | c :: cs =>
      if c = '"' then
        (parseStringBody cs.length cs).map (fun p => (.v (.str p.1), p.2))
      else if c = '\x7b' then
        match skipWs cs with
        | '\x7d' :: rest => some (.v (.obj []), rest)
        | rest2 =>
          match jsonParseF fuel .objItems rest2 with
          | some (.fs flds, rest3) => some (.v (.obj flds), rest3)
          | _ => none
      else if c = '[' then
        match skipWs cs with
        | ']' :: rest => some (.v (.arr []), rest)
        | rest2 =>
          match jsonParseF fuel .arrItems rest2 with
          | some (.vs xs, rest3) => some (.v (.arr xs), rest3)
          | _ => none
      else if startsWithChars "null".data (c :: cs) then some (.v .null, (c :: cs).drop 4)
      else if startsWithChars "true".data (c :: cs) then some (.v (.bool true), (c :: cs).drop 4)
      else if startsWithChars "false".data (c :: cs) then some (.v (.bool false), (c :: cs).drop 5)
      else if c = '-' then
        match cs.takeWhile Char.isDigit with
        | [] => none
        | ds => some (.v (.num (-(digitsVal ds : Int))), cs.drop ds.length)
      else if c.isDigit then
        match (c :: cs).takeWhile Char.isDigit with
        | [] => none
        | ds => some (.v (.num (digitsVal ds)), (c :: cs).drop ds.length)
      else none
  | fuel + 1, .arrItems, input =>
    match jsonParseF fuel .val input with
    | some (.v x, rest) =>
      match skipWs rest with
      | ',' :: rest2 =>
        match jsonParseF fuel .arrItems rest2 with
        | some (.vs xs, rest3) => some (.vs (x :: xs), rest3)
        | _ => none
      | ']' :: rest2 => some (.vs [x], rest2)
      | _ => none
    | _ => none
  | fuel + 1, .objItems, input =>
    match skipWs input with
    | '"' :: cs =>
      match parseStringBody cs.length cs with
      | some (k, rest) =>
        match skipWs rest with
        | ':' :: rest2 =>
          match jsonParseF fuel .val rest2 with
          | some (.v x, rest3) =>
            match skipWs rest3 with
            | ',' :: rest4 =>
              match jsonParseF fuel .objItems rest4 with
              | some (.fs flds, rest5) => some (.fs ((k, x) :: flds), rest5)
              | _ => none
            | '\x7d' :: rest4 => some (.fs [(k, x)], rest4)
            | _ => none
          | _ => none
        | _ => none
      | none => none
    | _ => none

/-- JSON.parse on a string: a single value followed only by whitespace. -/
def jsonParse (s : String) : Option JVal :=
  match jsonParseF (2 * s.data.length + 2) .val s.data with
  | some (.v x, rest) => if skipWs rest = [] then some x else none
  | _ => none

/-- Match a parseJSON placeholder (two braces, parseJSON, an open paren, a
non-empty run of non-parenthesis characters, then a close paren and two
closing braces) at the head of the input. -/
def matchParseJson (input : List Char) : Option (String × List Char) :=
  if startsWithChars "\x7b\x7bparseJSON(".data input then
    if (input.drop 12).takeWhile (fun c => !(c == ')')) = [] then none
    else if startsWithChars ")\x7d\x7d".data
        ((input.drop 12).drop ((input.drop 12).takeWhile (fun c => !(c == ')'))).length) then
      some (String.mk ((input.drop 12).takeWhile (fun c => !(c == ')'))),
            ((input.drop 12).drop
              ((input.drop 12).takeWhile (fun c => !(c == ')'))).length).drop 3)
    else none
  else none

/-- The search of the captured expression for a parameters.key reference,
as the inner regex match: first position where parameters. is followed by
at least one word character, the key being the maximal word run. -/
def findParamsKey : Nat → List Char → Option String
  | 0, _ => none
  | _ + 1, [] => none
  | fuel + 1, c :: cs =>
    if startsWithChars "parameters.".data (c :: cs) then
      match ((c :: cs).drop 11).takeWhile isWordChar with
      | [] => findParamsKey fuel cs
      | k => some (String.mk k)
    else findParamsKey fuel cs

/-- The replacement value of a parseJSON placeholder: the JSON
re-serialization of the referenced parameter, parsing it first when it is
a string (a parse failure throws), the empty string when the expression
names no parameter, the text undefined when the parameter is absent. -/
def renderParseJsonValue (context : ImlContext) (expr : String) : Except String String :=
  match findParamsKey expr.data.length expr.data with
  | none => .ok ""
  | some k =>
    match ctxGet context.parameters k with
    | some (.str s) =>
      match jsonParse s with
      | some v => .ok (jsonStringify v)
      | none => .error ("Unexpected token in JSON: " ++ s)
    | some v => .ok (jsonStringify v)
    | none => .ok "undefined"

/-- The parseJSON replacement pass; a throwing replacement aborts the
whole template evaluation. -/
def scanParseJson (context : ImlContext) : Nat → List Char → Except String (List Char)
  | 0, input => .ok input
  | _ + 1, [] => .ok []
  | fuel + 1, c :: cs =>
    match matchParseJson (c :: cs) with
    | some (expr, rest) =>
      match renderParseJsonValue context expr with
      | .error e => .error e
      | .ok s => (scanParseJson context fuel rest).map (fun t => s.data ++ t)
    | none => (scanParseJson context fuel cs).map (fun t => c :: t)

/-- String-level wrapper of the parseJSON pass. -/
def replaceParseJsonForm (context : ImlContext) (s : String) : Except String String :=
  (scanParseJson context s.data.length s.data).map String.mk

/-- processImlTemplate from scripts/test-module.ts: the four sequential
replacement passes, in source order parameters, temp, body, parseJSON. -/
def processImlTemplate (template : String) (context : ImlContext) : Except String String :=
  replaceParseJsonForm context
    (replaceWordForm "body." (renderTempBodyValue context.body)
      (replaceWordForm "temp." (renderTempBodyValue context.temp)
        (replaceWordForm "parameters." (renderParamsValue context) template)))

/-- Modelled from the spec: the replacement value the spec sentence
assigns to a parameters placeholder (the value, JSON-stringified when an
object; nothing is said about an absent value, rendered empty here). -/
def claimParamsValue (context : ImlContext) (key : String) : String :=
  match ctxGet context.parameters key with
  | some v => if isObjectType v then jsonStringify v else jsToString v
  | none => ""

/-- Modelled from the spec: the replacement value the spec sentence
assigns to a temp or body placeholder (the corresponding context value, or
the empty string when that value is absent). -/
def claimTempBodyValue (m : Option (List (String × JVal))) (key : String) : String :=
  match ctxGet m key with
  | some v => jsToString v
  | none => ""

/-- Modelled from the spec: the replacement value the spec sentence
assigns to a parseJSON placeholder (the JSON re-serialization of the
parameter, parsed first when a string). -/
def claimParseJsonValue (context : ImlContext) (key : String) : Except String String :=
  match ctxGet context.parameters key with
  | some (.str s) =>
    match jsonParse s with
    | some v => .ok (jsonStringify v)
    | none => .error ("Unexpected token in JSON: " ++ s)
  | some v => .ok (jsonStringify v)
  | none => .ok ""

/-- Match of the spec-described parseJSON placeholder with a literal
parameters.key expression. -/
def matchSpecPJ (input : List Char) : Option (String × List Char) :=
  if startsWithChars "\x7b\x7bparseJSON(parameters.".data input then
    if (input.drop 23).takeWhile isWordChar = [] then none
    else if startsWithChars ")\x7d\x7d".data
        ((input.drop 23).drop ((input.drop 23).takeWhile isWordChar).length) then
      some (String.mk ((input.drop 23).takeWhile isWordChar),
            ((input.drop 23).drop ((input.drop 23).takeWhile isWordChar).length).drop 3)
    else none
  else none

/-- Modelled from the spec: a single simultaneous substitution pass that
replaces each occurrence of any of the four placeholder forms by the value
the spec sentence describes and leaves all other text unchanged. -/
def specScan (context : ImlContext) : Nat → List Char → Except String (List Char)
  | 0, input => .ok input
  | _ + 1, [] => .ok []
  | fuel + 1, c :: cs =>
    match matchWordForm "parameters.".data (c :: cs) with
    | some (key, rest) =>
      (specScan context fuel rest).map (fun t => (claimParamsValue context key).data ++ t)
    | none =>
      match matchWordForm "temp.".data (c :: cs) with
      | some (key, rest) =>
        (specScan context fuel rest).map
          (fun t => (claimTempBodyValue context.temp key).data ++ t)
      | none =>
        match matchWordForm "body.".data (c :: cs) with
        | some (key, rest) =>
          (specScan context fuel rest).map
            (fun t => (claimTempBodyValue context.body key).data ++ t)
        | none =>
          match matchSpecPJ (c :: cs) with
          | some (key, rest) =>
            match claimParseJsonValue context key with
            | .error e => .error e
            | .ok s => (specScan context fuel rest).map (fun t => s.data ++ t)
          | none => (specScan context fuel cs).map (fun t => c :: t)

/-- Modelled from the spec: the whole template substitution as the spec
sentence describes it, applied simultaneously in one pass. -/
def specSimulSubst (template : String) (context : ImlContext) : Except String String :=
  (specScan context template.data.length template.data).map String.mk

/-- No two adjacent opening braces anywhere in the text: such text cannot
contain or contribute to any placeholder. -/
def noDoubleBrace : List Char → Bool
  | [] => true
  | [_] => true
  | a :: b :: rest => !(a == '\x7b' && b == '\x7b') && noDoubleBrace (b :: rest)

/-- A well-formed placeholder key: non-empty, word characters only. -/
def goodKey (key : List Char) : Prop :=
  key ≠ [] ∧ ∀ c ∈ key, isWordChar c = true

/-- Counterexample to C7: the code applies four sequential passes, not one
simultaneous substitution.  A present but falsy temp value (false) is
replaced by the empty string, not by the value; and a parameters value
that itself contains placeholder text is re-substituted by the later temp
pass instead of appearing verbatim in the output. -/
theorem processImlTemplate_counterexample :
    processImlTemplate "\x7b\x7btemp.a\x7d\x7d" ⟨none, some [("a", .bool false)], none⟩ =
      .ok "" ∧
    specSimulSubst "\x7b\x7btemp.a\x7d\x7d" ⟨none, some [("a", .bool false)], none⟩ =
      .ok "false" ∧
    processImlTemplate "\x7b\x7bparameters.a\x7d\x7d"
        ⟨some [("a", .str "\x7b\x7btemp.b\x7d\x7d")], some [("b", .str "X")], none⟩ =
      .ok "X" ∧
    specSimulSubst "\x7b\x7bparameters.a\x7d\x7d"
        ⟨some [("a", .str "\x7b\x7btemp.b\x7d\x7d")], some [("b", .str "X")], none⟩ =
      .ok "\x7b\x7btemp.b\x7d\x7d" ∧
    ("" : String) ≠ "false" ∧ ("X" : String) ≠ "\x7b\x7btemp.b\x7d\x7d" := by
  refine ⟨rfl, rfl, rfl, rfl, by decide, by decide⟩

theorem startsWithChars_self : ∀ xs ys : List Char, startsWithChars xs (xs ++ ys) = true := by
  intro xs ys
  induction xs with
  | nil => rfl
  | cons a as ih => simp [startsWithChars, ih]

theorem takeWhile_all_append (p : Char → Bool) :
    ∀ (xs : List Char) (y : Char) (ys : List Char),
      (∀ c ∈ xs, p c = true) → p y = false →
      List.takeWhile p (xs ++ y :: ys) = xs := by
  intro xs
  induction xs with
  | nil => intro y ys _ hy; simp [List.takeWhile, hy]
  | cons a as ih =>
    intro y ys h hy
    have ha : p a = true := h a (List.mem_cons_self a as)
    simp only [List.cons_append, List.takeWhile, ha]
    simp only [List.append_eq]
    rw [ih y ys (fun c hc => h c (List.mem_cons_of_mem a hc)) hy]

theorem takeWhile_all (p : Char → Bool) :
    ∀ xs : List Char, (∀ c ∈ xs, p c = true) → List.takeWhile p xs = xs := by
  intro xs
  induction xs with
  | nil => intro _; rfl
  | cons a as ih =>
    intro h
    have ha : p a = true := h a (List.mem_cons_self a as)
    simp only [List.takeWhile, ha]
    rw [ih (fun c hc => h c (List.mem_cons_of_mem a hc))]

theorem drop_len_append : ∀ (xs ys : List Char) (n : Nat), n = xs.length →
    (xs ++ ys).drop n = ys := by
  intro xs ys n hn
  subst hn
  exact List.drop_left xs ys

theorem matchWordForm_at_hole (pat key post : List Char) (hk : goodKey key) :
    matchWordForm pat (('\x7b' :: '\x7b' :: pat) ++ (key ++ ('\x7d' :: '\x7d' :: post))) =
      some (String.mk key, post) := by
  obtain ⟨hne, hword⟩ := hk
  have h1 : startsWithChars ('\x7b' :: '\x7b' :: pat)
      (('\x7b' :: '\x7b' :: pat) ++ (key ++ ('\x7d' :: '\x7d' :: post))) = true :=
    startsWithChars_self _ _
  have h2 : ((('\x7b' :: '\x7b' :: pat) ++ (key ++ ('\x7d' :: '\x7d' :: post))).drop
      (2 + pat.length)) = key ++ ('\x7d' :: '\x7d' :: post) :=
    drop_len_append _ _ _ (by simp [List.length_cons]; omega)
  have h3 : List.takeWhile isWordChar (key ++ ('\x7d' :: '\x7d' :: post)) = key :=
    takeWhile_all_append _ _ _ _ hword (by decide)
  have h4 : (key ++ ('\x7d' :: '\x7d' :: post)).drop key.length = '\x7d' :: '\x7d' :: post :=
    drop_len_append _ _ _ rfl
  unfold matchWordForm
  rw [if_pos h1, h2, h3, if_neg (by simpa using hne), h4]
  rw [if_pos (by simp [startsWithChars])]
  rfl

theorem matchWordForm_none_first (pat : List Char) (c : Char) (cs : List Char)
    (hc : c ≠ '\x7b') : matchWordForm pat (c :: cs) = none := by
  unfold matchWordForm
  rw [if_neg]
  simp only [startsWithChars, Bool.and_eq_true, beq_iff_eq]
  intro h
  exact hc h.1.symm

theorem matchWordForm_none_second (pat : List Char) (c d : Char) (cs : List Char)
    (hd : d ≠ '\x7b') : matchWordForm pat (c :: d :: cs) = none := by
  unfold matchWordForm
  rw [if_neg]
  simp only [startsWithChars, Bool.and_eq_true, beq_iff_eq]
  intro h
  exact hd h.2.1.symm

theorem matchWordForm_none_third (p0 : Char) (ps0 : List Char) (hp0 : p0 ≠ '\x7b')
    (cs : List Char) :
    matchWordForm (p0 :: ps0) ('\x7b' :: '\x7b' :: '\x7b' :: cs) = none := by
  unfold matchWordForm
  rw [if_neg]
  simp only [startsWithChars, Bool.and_eq_true, beq_iff_eq]
  intro h
  exact hp0 h.2.2.1

theorem matchWordForm_some_shrink (pat : List Char) (c : Char) (cs : List Char)
    (k : String) (rest : List Char) (h : matchWordForm pat (c :: cs) = some (k, rest)) :
    rest.length < (c :: cs).length := by
  unfold matchWordForm at h
  split at h
  case isFalse => exact absurd h (by simp)
  case isTrue h1 =>
    split at h
    case isTrue => exact absurd h (by simp)
    case isFalse h2 =>
      split at h
      case isFalse => exact absurd h (by simp)
      case isTrue h3 =>
        injection h with h4
        injection h4 with h5 h6
        subst h6
        simp only [List.length_drop, List.length_cons]
        omega

theorem scanWordForm_fuel (pat : List Char) (render : String → String) :
    ∀ fuel, ∀ input : List Char, input.length ≤ fuel →
      scanWordForm pat render fuel input = scanWordForm pat render input.length input := by
  intro fuel
  induction fuel using Nat.strong_induction_on with
  | _ fuel ih =>
    match fuel with
    | 0 =>
      intro input hlen
      have : input = [] := by
        cases input with
        | nil => rfl
        | cons a as => simp at hlen
      subst this
      rfl
    | f + 1 =>
      intro input hlen
      cases input with
      | nil => rfl
      | cons c cs =>
        simp only [List.length_cons]
        simp only [scanWordForm]
        cases hm : matchWordForm pat (c :: cs) with
        | none =>
          simp only [hm]
          have h1 : scanWordForm pat render f cs = scanWordForm pat render cs.length cs :=
            ih f (by omega) cs (by simp at hlen; omega)
          rw [h1]
        | some pr =>
          obtain ⟨k, rest⟩ := pr
          simp only [hm]
          have hs := matchWordForm_some_shrink pat c cs k rest hm
          simp only [List.length_cons] at hs
          have h1 : scanWordForm pat render f rest =
              scanWordForm pat render rest.length rest :=
            ih f (by omega) rest (by simp at hlen; omega)
          have h2 : scanWordForm pat render cs.length rest =
              scanWordForm pat render rest.length rest :=
            ih cs.length (by simp at hlen; omega) rest (by omega)
          rw [h1, h2]

theorem noDoubleBrace_tail (c : Char) (l : List Char)
    (h : noDoubleBrace (c :: l) = true) : noDoubleBrace l = true := by
  cases l with
  | nil => rfl
  | cons d rest =>
    simp only [noDoubleBrace, Bool.and_eq_true] at h
    exact h.2

theorem noDoubleBrace_second (c d : Char) (l : List Char)
    (h : noDoubleBrace (c :: d :: l) = true) (hc : c = '\x7b') : d ≠ '\x7b' := by
  simp only [noDoubleBrace, Bool.and_eq_true, Bool.not_eq_true'] at h
  intro hd
  subst hc
  subst hd
  simp at h

theorem scanWordForm_split (pat : List Char) (render : String → String)
    (p0 : Char) (ps0 : List Char) (hpat : pat = p0 :: ps0) (hp0 : p0 ≠ '\x7b')
    (key : List Char) (hk : goodKey key) :
    ∀ (pre : List Char), noDoubleBrace pre = true → ∀ (post : List Char) (fuel : Nat),
      (pre ++ (('\x7b' :: '\x7b' :: pat) ++ (key ++ ('\x7d' :: '\x7d' :: post)))).length ≤ fuel →
      scanWordForm pat render fuel
          (pre ++ (('\x7b' :: '\x7b' :: pat) ++ (key ++ ('\x7d' :: '\x7d' :: post)))) =
        pre ++ ((render (String.mk key)).data ++ scanWordForm pat render post.length post) := by
  intro pre
  induction pre with
  | nil =>
    intro _ post fuel hfuel
    simp only [List.nil_append] at hfuel ⊢
    match fuel with
    | 0 => simp [List.length_append, List.length_cons] at hfuel
    | f + 1 =>
      simp only [List.cons_append, scanWordForm]
      have hm := matchWordForm_at_hole pat key post hk
      simp only [List.append_eq, List.cons_append] at hm ⊢
      rw [hm]
      dsimp only
      have hlen : post.length ≤ f := by
        simp only [List.length_append, List.length_cons] at hfuel
        omega
      rw [scanWordForm_fuel pat render f post hlen]
  | cons c pre' ih =>
    intro hndb post fuel hfuel
    match fuel with
    | 0 => simp [List.length_append, List.length_cons] at hfuel
    | f + 1 =>
      simp only [List.cons_append, scanWordForm]
      have hnone : matchWordForm pat
          (c :: (pre' ++ (('\x7b' :: '\x7b' :: pat) ++ (key ++ ('\x7d' :: '\x7d' :: post))))) =
          none := by
        by_cases hc : c = '\x7b'
        · cases pre' with
          | nil =>
            subst hc
            simp only [List.nil_append, List.cons_append]
            rw [hpat]
            exact matchWordForm_none_third p0 ps0 hp0 _
          | cons d ds =>
            have hd : d ≠ '\x7b' := noDoubleBrace_second c d ds hndb hc
            simp only [List.cons_append]
            exact matchWordForm_none_second pat c d _ hd
        · exact matchWordForm_none_first pat c _ hc
      simp only [List.append_eq, List.cons_append] at hnone ⊢
      rw [hnone]
      dsimp only
      have := ih (noDoubleBrace_tail c pre' hndb) post f
        (by simp only [List.length_cons, List.length_append] at hfuel ⊢; omega)
      simp only [List.append_eq, List.cons_append] at this ⊢
      rw [this]

theorem scanWordForm_nochange (pat : List Char) (render : String → String) :
    ∀ fuel (t : List Char), t.length ≤ fuel → noDoubleBrace t = true →
      scanWordForm pat render fuel t = t := by
  intro fuel
  induction fuel with
  | zero =>
    intro t hlen _
    cases t with
    | nil => rfl
    | cons a as => simp at hlen
  | succ f ih =>
    intro t hlen hndb
    cases t with
    | nil => rfl
    | cons c cs =>
      simp only [scanWordForm]
      have hnone : matchWordForm pat (c :: cs) = none := by
        by_cases hc : c = '\x7b'
        · cases cs with
          | nil =>
            unfold matchWordForm
            rw [if_neg]
            cases pat with
            | nil => simp [startsWithChars]
            | cons p ps => simp [startsWithChars]
          | cons d ds =>
            exact matchWordForm_none_second pat c d ds
              (noDoubleBrace_second c d ds hndb hc)
        · exact matchWordForm_none_first pat c cs hc
      rw [hnone]
      rw [ih cs (by simp at hlen; omega) (noDoubleBrace_tail c cs hndb)]

theorem matchParseJson_at_hole (expr post : List Char)
    (hne : expr ≠ []) (hnp : ∀ c ∈ expr, (!(c == ')')) = true) :
    matchParseJson ("\x7b\x7bparseJSON(".data ++ (expr ++ (')' :: '\x7d' :: '\x7d' :: post))) =
      some (String.mk expr, post) := by
  have h1 : startsWithChars "\x7b\x7bparseJSON(".data
      ("\x7b\x7bparseJSON(".data ++ (expr ++ (')' :: '\x7d' :: '\x7d' :: post))) = true :=
    startsWithChars_self _ _
  have h2 : (("\x7b\x7bparseJSON(".data ++ (expr ++ (')' :: '\x7d' :: '\x7d' :: post))).drop 12) =
      expr ++ (')' :: '\x7d' :: '\x7d' :: post) :=
    drop_len_append _ _ _ rfl
  have h3 : List.takeWhile (fun c => !(c == ')')) (expr ++ (')' :: '\x7d' :: '\x7d' :: post)) =
      expr :=
    takeWhile_all_append _ _ _ _ hnp (by decide)
  have h4 : (expr ++ (')' :: '\x7d' :: '\x7d' :: post)).drop expr.length =
      ')' :: '\x7d' :: '\x7d' :: post :=
    drop_len_append _ _ _ rfl
  have h5 : ")\x7d\x7d".data = [')', '\x7d', '\x7d'] := rfl
  unfold matchParseJson
  rw [if_pos h1, h2, h3, if_neg (by simpa using hne), h4]
  rw [if_pos (by rw [h5]; simp [startsWithChars])]
  rfl

theorem matchParseJson_none_first (c : Char) (cs : List Char) (hc : c ≠ '\x7b') :
    matchParseJson (c :: cs) = none := by
  unfold matchParseJson
  rw [if_neg]
  have h5 : "\x7b\x7bparseJSON(".data =
      '\x7b' :: '\x7b' :: "parseJSON(".data := rfl
  rw [h5]
  simp only [startsWithChars, Bool.and_eq_true, beq_iff_eq]
  intro h
  exact hc h.1.symm

theorem matchParseJson_none_second (c d : Char) (cs : List Char) (hd : d ≠ '\x7b') :
    matchParseJson (c :: d :: cs) = none := by
  unfold matchParseJson
  rw [if_neg]
  have h5 : "\x7b\x7bparseJSON(".data =
      '\x7b' :: '\x7b' :: "parseJSON(".data := rfl
  rw [h5]
  simp only [startsWithChars, Bool.and_eq_true, beq_iff_eq]
  intro h
  exact hd h.2.1.symm

theorem matchParseJson_none_third (cs : List Char) :
    matchParseJson ('\x7b' :: '\x7b' :: '\x7b' :: cs) = none := by
  unfold matchParseJson
  rw [if_neg]
  have h5 : "\x7b\x7bparseJSON(".data =
      '\x7b' :: '\x7b' :: 'p' :: "arseJSON(".data := rfl
  rw [h5]
  simp only [startsWithChars, Bool.and_eq_true, beq_iff_eq]
  intro h
  exact absurd h.2.2.1 (by decide)

theorem matchParseJson_none_single :
    matchParseJson ['\x7b'] = none := by
  unfold matchParseJson
  rw [if_neg]
  have h5 : "\x7b\x7bparseJSON(".data =
      '\x7b' :: '\x7b' :: "parseJSON(".data := rfl
  rw [h5]
  simp [startsWithChars]

theorem matchParseJson_some_shrink (c : Char) (cs : List Char)
    (k : String) (rest : List Char) (h : matchParseJson (c :: cs) = some (k, rest)) :
    rest.length < (c :: cs).length := by
  unfold matchParseJson at h
  split at h
  case isFalse => exact absurd h (by simp)
  case isTrue h1 =>
    split at h
    case isTrue => exact absurd h (by simp)
    case isFalse h2 =>
      split at h
      case isFalse => exact absurd h (by simp)
      case isTrue h3 =>
        injection h with h4
        injection h4 with h5 h6
        subst h6
        simp only [List.length_drop, List.length_cons]
        omega

theorem scanParseJson_fuel (context : ImlContext) :
    ∀ fuel, ∀ input : List Char, input.length ≤ fuel →
      scanParseJson context fuel input = scanParseJson context input.length input := by
  intro fuel
  induction fuel using Nat.strong_induction_on with
  | _ fuel ih =>
    match fuel with
    | 0 =>
      intro input hlen
      have : input = [] := by
        cases input with
        | nil => rfl
        | cons a as => simp at hlen
      subst this
      rfl
    | f + 1 =>
      intro input hlen
      cases input with
      | nil => rfl
      | cons c cs =>
        simp only [List.length_cons]
        simp only [scanParseJson]
        cases hm : matchParseJson (c :: cs) with
        | none =>
          simp only [hm]
          have h1 : scanParseJson context f cs = scanParseJson context cs.length cs :=
            ih f (by omega) cs (by simp at hlen; omega)
          rw [h1]
        | some pr =>
          obtain ⟨k, rest⟩ := pr
          simp only [hm]
          have hs := matchParseJson_some_shrink c cs k rest hm
          simp only [List.length_cons] at hs
          have h1 : scanParseJson context f rest = scanParseJson context rest.length rest :=
            ih f (by omega) rest (by simp at hlen; omega)
          have h2 : scanParseJson context cs.length rest =
              scanParseJson context rest.length rest :=
            ih cs.length (by simp at hlen; omega) rest (by omega)
          rw [h1, h2]

theorem scanParseJson_split (context : ImlContext) (expr : List Char)
    (hne : expr ≠ []) (hnp : ∀ c ∈ expr, (!(c == ')')) = true) :
    ∀ (pre : List Char), noDoubleBrace pre = true → ∀ (post : List Char) (fuel : Nat),
      (pre ++ ("\x7b\x7bparseJSON(".data ++ (expr ++ (')' :: '\x7d' :: '\x7d' :: post)))).length
        ≤ fuel →
      scanParseJson context fuel
          (pre ++ ("\x7b\x7bparseJSON(".data ++ (expr ++ (')' :: '\x7d' :: '\x7d' :: post)))) =
        (match renderParseJsonValue context (String.mk expr) with
         | .error e => .error e
         | .ok v =>
           (scanParseJson context post.length post).map (fun t => pre ++ (v.data ++ t))) := by
  intro pre
  induction pre with
  | nil =>
    intro _ post fuel hfuel
    simp only [List.nil_append] at hfuel ⊢
    match fuel with
    | 0 => simp [List.length_append, List.length_cons] at hfuel
    | f + 1 =>
      have hX : "\x7b\x7bparseJSON(".data =
          '\x7b' :: '\x7b' :: 'p' :: 'a' :: 'r' :: 's' :: 'e' :: 'J' :: 'S' :: 'O' :: 'N' :: '(' :: ([] : List Char) := rfl
      have hm := matchParseJson_at_hole expr post hne hnp
      rw [hX] at hm
      simp only [List.cons_append, List.nil_append] at hm ⊢
      simp only [scanParseJson]
      rw [hm]
      dsimp only
      cases hr : renderParseJsonValue context (String.mk expr) with
      | error e => rfl
      | ok v =>
        have hlen : post.length ≤ f := by
          simp only [List.length_append, List.length_cons] at hfuel
          omega
        rw [scanParseJson_fuel context f post hlen]
  | cons c pre' ih =>
    intro hndb post fuel hfuel
    match fuel with
    | 0 => simp [List.length_append, List.length_cons] at hfuel
    | f + 1 =>
      have hnone : matchParseJson
          (c :: (pre' ++ ("\x7b\x7bparseJSON(".data ++ (expr ++ (')' :: '\x7d' :: '\x7d' :: post))))) =
          none := by
        by_cases hc : c = '\x7b'
        · cases pre' with
          | nil =>
            subst hc
            have hX : "\x7b\x7bparseJSON(".data =
                '\x7b' :: '\x7b' :: 'p' :: "arseJSON(".data := rfl
            rw [hX]
            simp only [List.nil_append, List.cons_append]
            exact matchParseJson_none_third _
          | cons d ds =>
            have hd : d ≠ '\x7b' := noDoubleBrace_second c d ds hndb hc
            simp only [List.cons_append]
            exact matchParseJson_none_second c d _ hd
        · exact matchParseJson_none_first c _ hc
      simp only [scanParseJson]
      simp only [List.append_eq, List.cons_append] at hnone ⊢
      rw [hnone]
      dsimp only
      have := ih (noDoubleBrace_tail c pre' hndb) post f
        (by simp only [List.length_cons, List.length_append] at hfuel ⊢; omega)
      simp only [List.append_eq, List.cons_append] at this ⊢
      rw [this]
      cases hr : renderParseJsonValue context (String.mk expr) with
      | error e => rfl
      | ok v =>
        dsimp only
        cases hs : scanParseJson context post.length post with
        | error e => rfl
        | ok t => rfl

theorem scanParseJson_nochange (context : ImlContext) :
    ∀ fuel (t : List Char), t.length ≤ fuel → noDoubleBrace t = true →
      scanParseJson context fuel t = .ok t := by
  intro fuel
  induction fuel with
  | zero =>
    intro t hlen _
    cases t with
    | nil => rfl
    | cons a as => simp at hlen
  | succ f ih =>
    intro t hlen hndb
    cases t with
    | nil => rfl
    | cons c cs =>
      simp only [scanParseJson]
      have hnone : matchParseJson (c :: cs) = none := by
        by_cases hc : c = '\x7b'
        · cases cs with
          | nil => subst hc; exact matchParseJson_none_single
          | cons d ds =>
            exact matchParseJson_none_second c d ds (noDoubleBrace_second c d ds hndb hc)
        · exact matchParseJson_none_first c cs hc
      rw [hnone]
      rw [ih cs (by simp at hlen; omega) (noDoubleBrace_tail c cs hndb)]
      rfl

theorem findParamsKey_at (key : List Char) (hk : goodKey key) :
    findParamsKey ("parameters.".data ++ key).length ("parameters.".data ++ key) =
      some (String.mk key) := by
  obtain ⟨hne, hword⟩ := hk
  have hP : "parameters.".data =
      'p' :: 'a' :: 'r' :: 'a' :: 'm' :: 'e' :: 't' :: 'e' :: 'r' :: 's' :: '.' :: ([] : List Char) := rfl
  have hlen : ("parameters.".data ++ key).length = 10 + key.length + 1 := by
    rw [hP]; simp [List.length_append, List.length_cons]; omega
  rw [hlen]
  rw [hP]
  simp only [List.cons_append, List.nil_append]
  simp only [findParamsKey]
  have hsw : startsWithChars "parameters.".data
      ('p' :: 'a' :: 'r' :: 'a' :: 'm' :: 'e' :: 't' :: 'e' :: 'r' :: 's' :: '.' :: key) = true := by
    have : ('p' :: 'a' :: 'r' :: 'a' :: 'm' :: 'e' :: 't' :: 'e' :: 'r' :: 's' :: '.' :: key) =
        "parameters.".data ++ key := by rw [hP]; simp
    rw [this]
    exact startsWithChars_self _ _
  rw [if_pos hsw]
  have hdrop : (('p' :: 'a' :: 'r' :: 'a' :: 'm' :: 'e' :: 't' :: 'e' :: 'r' :: 's' :: '.' :: key).drop 11) = key := rfl
  rw [hdrop]
  rw [takeWhile_all isWordChar key hword]
  cases key with
  | nil => exact absurd rfl hne
  | cons a as => rfl

theorem wordCharNotParen (c : Char) (h : isWordChar c = true) : (!(c == ')')) = true := by
  by_cases hc : c = ')'
  · subst hc; exact absurd h (by decide)
  · simp [hc]

/-- C7 amended: the template processor is four sequential global
replacement passes in source order parameters, temp, body, parseJSON
(part 1); within each pass, a placeholder occurrence preceded by text free
of double braces is replaced by exactly the value the code computes for it
and scanning continues after it (parts 2-5); the parseJSON expression
parameters.key resolves to that parameter and, when the parameter is
present, yields precisely the JSON re-serialization the spec describes
(part 6); and text without double braces is left unchanged by every pass
(part 7). -/
theorem processImlTemplate_sequential_passes :
    (∀ (t : String) (context : ImlContext),
      processImlTemplate t context =
        replaceParseJsonForm context
          (replaceWordForm "body." (renderTempBodyValue context.body)
            (replaceWordForm "temp." (renderTempBodyValue context.temp)
              (replaceWordForm "parameters." (renderParamsValue context) t)))) ∧
    (∀ (context : ImlContext) (pre key post : List Char), goodKey key →
      noDoubleBrace pre = true →
      replaceWordForm "parameters." (renderParamsValue context)
          (String.mk (pre ++ (('\x7b' :: '\x7b' :: "parameters.".data) ++
            (key ++ ('\x7d' :: '\x7d' :: post))))) =
        String.mk (pre ++ ((renderParamsValue context (String.mk key)).data ++
          (replaceWordForm "parameters." (renderParamsValue context)
            (String.mk post)).data))) ∧
    (∀ (context : ImlContext) (pre key post : List Char), goodKey key →
      noDoubleBrace pre = true →
      replaceWordForm "temp." (renderTempBodyValue context.temp)
          (String.mk (pre ++ (('\x7b' :: '\x7b' :: "temp.".data) ++
            (key ++ ('\x7d' :: '\x7d' :: post))))) =
        String.mk (pre ++ ((renderTempBodyValue context.temp (String.mk key)).data ++
          (replaceWordForm "temp." (renderTempBodyValue context.temp)
            (String.mk post)).data))) ∧
    (∀ (context : ImlContext) (pre key post : List Char), goodKey key →
      noDoubleBrace pre = true →
      replaceWordForm "body." (renderTempBodyValue context.body)
          (String.mk (pre ++ (('\x7b' :: '\x7b' :: "body.".data) ++
            (key ++ ('\x7d' :: '\x7d' :: post))))) =
        String.mk (pre ++ ((renderTempBodyValue context.body (String.mk key)).data ++
          (replaceWordForm "body." (renderTempBodyValue context.body)
            (String.mk post)).data))) ∧
    (∀ (context : ImlContext) (pre key post : List Char), goodKey key →
      noDoubleBrace pre = true →
      replaceParseJsonForm context
          (String.mk (pre ++ ("\x7b\x7bparseJSON(".data ++
            (("parameters.".data ++ key) ++ (')' :: '\x7d' :: '\x7d' :: post))))) =
        (match renderParseJsonValue context (String.mk ("parameters.".data ++ key)) with
         | .error e => .error e
         | .ok v => (replaceParseJsonForm context (String.mk post)).map
             (fun u => String.mk (pre ++ (v.data ++ u.data))))) ∧
    (∀ (context : ImlContext) (key : List Char), goodKey key →
      ctxGet context.parameters (String.mk key) ≠ none →
      renderParseJsonValue context (String.mk ("parameters.".data ++ key)) =
        claimParseJsonValue context (String.mk key)) ∧
    (∀ (context : ImlContext) (t : List Char), noDoubleBrace t = true →
      replaceWordForm "parameters." (renderParamsValue context) (String.mk t) =
        String.mk t ∧
      replaceWordForm "temp." (renderTempBodyValue context.temp) (String.mk t) =
        String.mk t ∧
      replaceWordForm "body." (renderTempBodyValue context.body) (String.mk t) =
        String.mk t ∧
      replaceParseJsonForm context (String.mk t) = .ok (String.mk t)) := by
  refine ⟨fun t context => rfl, ?_, ?_, ?_, ?_, ?_, ?_⟩
  · intro context pre key post hk hndb
    exact congrArg String.mk
      (scanWordForm_split "parameters.".data (renderParamsValue context)
        'p' "arameters.".data rfl (by decide) key hk pre hndb post _ (le_refl _))
  · intro context pre key post hk hndb
    exact congrArg String.mk
      (scanWordForm_split "temp.".data (renderTempBodyValue context.temp)
        't' "emp.".data rfl (by decide) key hk pre hndb post _ (le_refl _))
  · intro context pre key post hk hndb
    exact congrArg String.mk
      (scanWordForm_split "body.".data (renderTempBodyValue context.body)
        'b' "ody.".data rfl (by decide) key hk pre hndb post _ (le_refl _))
  · intro context pre key post hk hndb
    have hnp : ∀ c ∈ "parameters.".data ++ key, (!(c == ')')) = true := by
      intro c hc
      rcases List.mem_append.mp hc with hc | hc
      · have hP : "parameters.".data =
            ['p', 'a', 'r', 'a', 'm', 'e', 't', 'e', 'r', 's', '.'] := rfl
        rw [hP] at hc
        fin_cases hc <;> decide
      · exact wordCharNotParen c (hk.2 c hc)
    have hne : ("parameters.".data ++ key) ≠ [] := by
      intro h
      have := congrArg List.length h
      simp at this
    have h := scanParseJson_split context ("parameters.".data ++ key) hne hnp
      pre hndb post _ (le_refl _)
    have hgoal : replaceParseJsonForm context
        (String.mk (pre ++ ("\x7b\x7bparseJSON(".data ++
          (("parameters.".data ++ key) ++ (')' :: '\x7d' :: '\x7d' :: post))))) =
        (scanParseJson context
          (pre ++ ("\x7b\x7bparseJSON(".data ++
            (("parameters.".data ++ key) ++ (')' :: '\x7d' :: '\x7d' :: post)))).length
          (pre ++ ("\x7b\x7bparseJSON(".data ++
            (("parameters.".data ++ key) ++ (')' :: '\x7d' :: '\x7d' :: post))))).map
          String.mk := rfl
    rw [hgoal, h]
    cases hr : renderParseJsonValue context (String.mk ("parameters.".data ++ key)) with
    | error e => rfl
    | ok v =>
      dsimp only
      have hpost : replaceParseJsonForm context (String.mk post) =
          (scanParseJson context post.length post).map String.mk := rfl
      rw [hpost]
      cases hs : scanParseJson context post.length post with
      | error e => rfl
      | ok u => rfl
  · intro context key hk hget
    show (match findParamsKey (String.mk ("parameters.".data ++ key)).data.length
        (String.mk ("parameters.".data ++ key)).data with
      | none => Except.ok ""
      | some k =>
        match ctxGet context.parameters k with
        | some (.str s) =>
          match jsonParse s with
          | some v => Except.ok (jsonStringify v)
          | none => Except.error ("Unexpected token in JSON: " ++ s)
        | some v => Except.ok (jsonStringify v)
        | none => Except.ok "undefined") = claimParseJsonValue context (String.mk key)
    rw [show (String.mk ("parameters.".data ++ key)).data = "parameters.".data ++ key from rfl]
    rw [findParamsKey_at key hk]
    unfold claimParseJsonValue
    cases hg : ctxGet context.parameters (String.mk key) with
    | none => exact absurd hg hget
    | some v =>
      dsimp only
      rw [hg]
      cases v <;> rfl
  · intro context t hndb
    refine ⟨?_, ?_, ?_, ?_⟩
    · exact congrArg String.mk (scanWordForm_nochange _ _ t.length t (le_refl _) hndb)
    · exact congrArg String.mk (scanWordForm_nochange _ _ t.length t (le_refl _) hndb)
    · exact congrArg String.mk (scanWordForm_nochange _ _ t.length t (le_refl _) hndb)
    · show (scanParseJson context t.length t).map String.mk = .ok (String.mk t)
      rw [scanParseJson_nochange context t.length t (le_refl _) hndb]
      rfl

/-- Witness for the amended C7: the parameters pass on a concrete template
with surrounding literal text substitutes the parameter value in place. -/
theorem processImlTemplate_sequential_passes_witness :
    replaceWordForm "parameters."
        (renderParamsValue ⟨some [("x", .str "V")], none, none⟩)
        (String.mk (['A'] ++ (('\x7b' :: '\x7b' :: "parameters.".data) ++
          (['x'] ++ ('\x7d' :: '\x7d' :: ['B']))))) =
      String.mk (['A'] ++
        ((renderParamsValue ⟨some [("x", .str "V")], none, none⟩ (String.mk ['x'])).data ++
          (replaceWordForm "parameters."
            (renderParamsValue ⟨some [("x", .str "V")], none, none⟩)
            (String.mk ['B'])).data)) :=
  processImlTemplate_sequential_passes.2.1 ⟨some [("x", .str "V")], none, none⟩
    ['A'] ['x'] ['B'] ⟨by decide, by decide⟩ (by decide)

/-!
## The deploy scripts (scripts/deploy.ts, current and earlier revision)

Requests to the Make.com SDK API are modelled with a structured endpoint
(endpointStr reproduces the exact URL templates).  The oracle maps each
request to its outcome; Except.error covers both a rejected fetch and a
non-OK HTTP status (makeRequest throws in both cases).  The filesystem is
modelled as parsed configuration data; a missing directory is none.
-/

/-- The SDK API endpoints addressed by the deploy scripts. -/
inductive MEndpoint where
  | base
  | common
  | connectionsRoot
  | connectionApi (name : String)
  | connectionParameters (name : String)
  | modulesRoot
  | moduleApi (name : String)
  | moduleExpect (name : String)
  | moduleInterface (name : String)
  | moduleSamples (name : String)
  | rpcsRoot
  | rpcApi (name : String)
  | rpcParameters (name : String)
deriving DecidableEq

/-- The URL template of each endpoint, exactly as the source builds it. -/
def endpointStr (appId version : String) : MEndpoint → String
  | .base => "/" ++ appId ++ "/" ++ version ++ "/base"
  | .common => "/" ++ appId ++ "/" ++ version ++ "/common"
  | .connectionsRoot => "/" ++ appId ++ "/connections"
  | .connectionApi n => "/" ++ appId ++ "/connections/" ++ n ++ "/api"
  | .connectionParameters n => "/" ++ appId ++ "/connections/" ++ n ++ "/parameters"
  | .modulesRoot => "/" ++ appId ++ "/" ++ version ++ "/modules"
  | .moduleApi n => "/" ++ appId ++ "/" ++ version ++ "/modules/" ++ n ++ "/api"
  | .moduleExpect n => "/" ++ appId ++ "/" ++ version ++ "/modules/" ++ n ++ "/expect"
  | .moduleInterface n => "/" ++ appId ++ "/" ++ version ++ "/modules/" ++ n ++ "/interface"
  | .moduleSamples n => "/" ++ appId ++ "/" ++ version ++ "/modules/" ++ n ++ "/samples"
  | .rpcsRoot => "/" ++ appId ++ "/" ++ version ++ "/rpcs"
  | .rpcApi n => "/" ++ appId ++ "/" ++ version ++ "/rpcs/" ++ n ++ "/api"
  | .rpcParameters n => "/" ++ appId ++ "/" ++ version ++ "/rpcs/" ++ n ++ "/parameters"

/-- The deploy category of an endpoint, in deploy order: base, common,
connections, modules, rpcs. -/
def catRank : MEndpoint → Nat
  | .base => 0
  | .common => 1
  | .connectionsRoot => 2
  | .connectionApi _ => 2
  | .connectionParameters _ => 2
  | .modulesRoot => 3
  | .moduleApi _ => 3
  | .moduleExpect _ => 3
  | .moduleInterface _ => 3
  | .moduleSamples _ => 3
  | .rpcsRoot => 4
  | .rpcApi _ => 4
  | .rpcParameters _ => 4

/-- A create-request body sent by either deploy script revision. -/
inductive MBody where
  | text (s : String)
  | connCreateV2 (label : String) (ctype : String)
  | connCreateV1 (name : String) (label : String) (ctype : String)
  | modCreateV2 (name : String) (label : String) (description : String)
      (typeId : Nat) (connection : Option String)
  | modCreateV1 (name : String) (label : String) (description : String)
      (type_id : Nat) (connection : Option String) (moduleInitMode : String)
  | rpcCreateV2 (name : String) (label : String) (connection : Option String)
  | rpcCreateV1 (name : String) (label : String) (connection : Option String)
deriving DecidableEq

/-- A request issued through makeRequest. -/
structure MReq where
  method : String
  endpoint : MEndpoint
  body : Option MBody
  contentType : String
deriving DecidableEq

/-- The response fields the deploy scripts read (each request reads the
ones it needs; a missing appConnection object makes the create path throw
a TypeError). -/
structure MResp where
  appConnections : List (String × String) := []
  appModules : List String := []
  appRpcs : List String := []
  appConnection : Option String := none

/-- A per-component deploy result. -/
structure DeployResult where
  success : Bool
  component : String
  error : Option String := none
deriving DecidableEq

/-- A PUT of stringified JSON code. -/
def putReq (ep : MEndpoint) (v : JVal) (ct : String) : MReq :=
  ⟨"PUT", ep, some (.text (jsonStringify v)), ct⟩

/-- A bodyless GET. -/
def getReq (ep : MEndpoint) : MReq :=
  ⟨"GET", ep, none, "application/json"⟩

/-- The JavaScript or-default on an optional string (absent or empty both
fall back). -/
def jsLabel (l : Option String) (d : String) : String :=
  match l with
  | some s => if s = "" then d else s
  | none => d

/-- The JavaScript truthiness filter on an optional string: absent or
empty becomes none. -/
def jsOptStr (o : Option String) : Option String :=
  match o with
  | some s => if s = "" then none else some s
  | none => none

/-- Filename to Make.com component name: drop the first .imljson
occurrence (String.replace semantics) and turn dashes into underscores. -/
def dropFirstMatch (pat : List Char) : Nat → List Char → List Char
  | 0, input => input
  | _ + 1, [] => []
  | fuel + 1, c :: cs =>
    if startsWithChars pat (c :: cs) then (c :: cs).drop pat.length
    else c :: dropFirstMatch pat fuel cs

/-- The component name derived from an imljson filename. -/
def moduleNameOf (file : String) : String :=
  String.mk ((dropFirstMatch ".imljson".data file.data.length file.data).map
    (fun c => if c = '-' then '_' else c))

/-- First-match lookup in a string association list. -/
def assocGetS : List (String × String) → String → Option String
  | [], _ => none
  | p :: ps, k => if p.1 = k then some p.2 else assocGetS ps k

/-- Insertion into a JavaScript Map: an existing key is updated in place,
a new key is appended. -/
def setAssoc : List (String × String) → String → String → List (String × String)
  | [], k, v => [(k, v)]
  | p :: ps, k, v => if p.1 = k then (k, v) :: ps else p :: setAssoc ps k v

/-- The Map built by inserting the listed pairs in order. -/
def mapFromPairs (l : List (String × String)) : List (String × String) :=
  l.foldl (fun acc p => setAssoc acc p.1 p.2) []

/-- A parsed imljson component configuration (only the fields the deploy
scripts read). -/
structure FileCfg where
  label : Option String := none
  type : Option String := none
  description : Option String := none
  connection : Option String := none
  communication : Option JVal := none
  parameters : Option JVal := none
  interface : Option JVal := none
  samples : Option JVal := none

/-- The filesystem the deploy scripts read: parsed base and common files
plus the imljson files (filename and parsed config, in directory order) of
each component directory, none when the directory does not exist. -/
structure FS where
  base : JVal
  common : JVal
  connections : Option (List (String × FileCfg)) := none
  modules : Option (List (String × FileCfg)) := none
  rpcs : Option (List (String × FileCfg)) := none

/-- Connection files in directory order (missing directory reads empty). -/
def connFiles (fs : FS) : List (String × FileCfg) := fs.connections.getD []

/-- Module files in directory order. -/
def modFiles (fs : FS) : List (String × FileCfg) := fs.modules.getD []

/-- RPC files in directory order. -/
def rpcFiles (fs : FS) : List (String × FileCfg) := fs.rpcs.getD []

/-- Issue a sequence of PUT requests, stopping at the first failure. -/
def putSeq (oracle : MReq → Except String MResp) : List MReq → List MReq × Option String
  | [] => ([], none)
  | r :: rs =>
    match oracle r with
    | .error e => ([r], some e)
    | .ok _ =>
      let rest := putSeq oracle rs
      (r :: rest.1, rest.2)

/-- deployBase of the current revision: one jsonc PUT of base.imljson. -/
def deployBase (fs : FS) (oracle : MReq → Except String MResp) : List MReq × DeployResult :=
  match oracle (putReq .base fs.base "application/jsonc") with
  | .error e => ([putReq .base fs.base "application/jsonc"], ⟨false, "base", some e⟩)
  | .ok _ => ([putReq .base fs.base "application/jsonc"], ⟨true, "base", none⟩)

/-- deployCommon of the current revision: one json PUT of common.imljson. -/
def deployCommon (fs : FS) (oracle : MReq → Except String MResp) : List MReq × DeployResult :=
  match oracle (putReq .common fs.common "application/json") with
  | .error e => ([putReq .common fs.common "application/json"], ⟨false, "common", some e⟩)
  | .ok _ => ([putReq .common fs.common "application/json"], ⟨true, "common", none⟩)

/-- deployConnection of the current revision: list existing connections by
label, create the connection only when its label is unknown, and skip any
code deployment. -/
def deployConnectionV2 (localName : String) (cfg : FileCfg)
    (oracle : MReq → Except String MResp) : List MReq × DeployResult :=
  let label := jsLabel cfg.label localName
  match oracle (getReq .connectionsRoot) with
  | .error e => ([getReq .connectionsRoot], ⟨false, "connection:" ++ label, some e⟩)
  | .ok resp =>
    match jsOptStr (assocGetS (mapFromPairs resp.appConnections) label) with
    | some _ => ([getReq .connectionsRoot], ⟨true, "connection:" ++ label, none⟩)
    | none =>
      match oracle ⟨"POST", .connectionsRoot,
          some (.connCreateV2 label (jsLabel cfg.type "basic")), "application/json"⟩ with
      | .error e =>
        ([getReq .connectionsRoot,
          ⟨"POST", .connectionsRoot, some (.connCreateV2 label (jsLabel cfg.type "basic")),
           "application/json"⟩],
         ⟨false, "connection:" ++ label, some e⟩)
      | .ok resp2 =>
        match resp2.appConnection with
        | none =>
          ([getReq .connectionsRoot,
            ⟨"POST", .connectionsRoot, some (.connCreateV2 label (jsLabel cfg.type "basic")),
             "application/json"⟩],
           ⟨false, "connection:" ++ label,
            some "TypeError: Cannot read properties of undefined (reading name)"⟩)
        | some _ =>
          ([getReq .connectionsRoot,
            ⟨"POST", .connectionsRoot, some (.connCreateV2 label (jsLabel cfg.type "basic")),
             "application/json"⟩],
           ⟨true, "connection:" ++ label, none⟩)

/-- The connection-reference resolution of the current revision for
modules: translate the known local name to its label, look the label up in
the connection map, and otherwise fall back to the first map value equal
to the reference. -/
def resolveConnection (connMap : List (String × String)) (c : String) : Option String :=
  match jsOptStr (assocGetS connMap (if c = "everyrow-api" then "EveryRow API" else c)) with
  | some n => some n
  | none =>
    match connMap.find? (fun p => p.2 = c) with
    | some p => some p.2
    | none => none

/-- The connection-reference resolution of the current revision for RPCs
(label lookup only, no fallback). -/
def resolveConnectionRpc (connMap : List (String × String)) (c : String) : Option String :=
  jsOptStr (assocGetS connMap (if c = "everyrow-api" then "EveryRow API" else c))

/-- The module type name derived from the config type field. -/
def moduleTypeOf (t : Option String) : String :=
  if t = some "search" then "search"
  else if t = some "trigger" then "trigger"
  else "action"

/-- The conditional code PUTs of a module, in source order. -/
def modulePuts (name : String) (cfg : FileCfg) (ct : String) : List MReq :=
  ([(cfg.communication, MEndpoint.moduleApi name),
    (cfg.parameters, MEndpoint.moduleExpect name),
    (cfg.interface, MEndpoint.moduleInterface name),
    (cfg.samples, MEndpoint.moduleSamples name)]).filterMap
    (fun p => p.1.map (fun v => putReq p.2 v ct))

/-- The conditional code PUTs of an RPC, in source order. -/
def rpcPuts (name : String) (cfg : FileCfg) (ct : String) : List MReq :=
  ([(cfg.communication, MEndpoint.rpcApi name),
    (cfg.parameters, MEndpoint.rpcParameters name)]).filterMap
    (fun p => p.1.map (fun v => putReq p.2 v ct))

/-- deployModule of the current revision: list existing modules, create
only when absent (an error here fails the component), then the code PUTs. -/
def deployModuleV2 (name : String) (cfg : FileCfg) (connMap : List (String × String))
    (oracle : MReq → Except String MResp) : List MReq × DeployResult :=
  match oracle (getReq .modulesRoot) with
  | .error e => ([getReq .modulesRoot], ⟨false, "module:" ++ name, some e⟩)
  | .ok resp =>
    let connectionName :=
      match jsOptStr cfg.connection with
      | some c => resolveConnection connMap c
      | none => none
    let createReqs : List MReq :=
      if resp.appModules.contains name then []
      else [⟨"POST", .modulesRoot,
        some (.modCreateV2 name (jsLabel cfg.label name) (jsLabel cfg.description "")
          (getModuleTypeId (moduleTypeOf cfg.type)) connectionName), "application/json"⟩]
    match putSeq oracle createReqs with
    | (ctrace, some e) => (getReq .modulesRoot :: ctrace, ⟨false, "module:" ++ name, some e⟩)
    | (ctrace, none) =>
      match putSeq oracle (modulePuts name cfg "application/jsonc") with
      | (ptrace, some e) =>
        (getReq .modulesRoot :: (ctrace ++ ptrace), ⟨false, "module:" ++ name, some e⟩)
      | (ptrace, none) =>
        (getReq .modulesRoot :: (ctrace ++ ptrace), ⟨true, "module:" ++ name, none⟩)

/-- deployRpc of the current revision. -/
def deployRpcV2 (name : String) (cfg : FileCfg) (connMap : List (String × String))
    (oracle : MReq → Except String MResp) : List MReq × DeployResult :=
  match oracle (getReq .rpcsRoot) with
  | .error e => ([getReq .rpcsRoot], ⟨false, "rpc:" ++ name, some e⟩)
  | .ok resp =>
    let connectionName :=
      match jsOptStr cfg.connection with
      | some c => resolveConnectionRpc connMap c
      | none => none
    let createReqs : List MReq :=
      if resp.appRpcs.contains name then []
      else [⟨"POST", .rpcsRoot,
        some (.rpcCreateV2 name (jsLabel cfg.label name) connectionName), "application/json"⟩]
    match putSeq oracle createReqs with
    | (ctrace, some e) => (getReq .rpcsRoot :: ctrace, ⟨false, "rpc:" ++ name, some e⟩)
    | (ctrace, none) =>
      match putSeq oracle (rpcPuts name cfg "application/jsonc") with
      | (ptrace, some e) =>
        (getReq .rpcsRoot :: (ctrace ++ ptrace), ⟨false, "rpc:" ++ name, some e⟩)
      | (ptrace, none) =>
        (getReq .rpcsRoot :: (ctrace ++ ptrace), ⟨true, "rpc:" ++ name, none⟩)

/-- The outcome of the current-revision main: either the full result list
(exit decided by the summary) or a crash of the unprotected connection-map
refresh with the results collected so far. -/
inductive MainOut where
  | done (results : List DeployResult)
  | crashed (results : List DeployResult) (e : String)

/-- The process exit code: 1 on any failed result or on a crash. -/
def exitCodeV2 : MainOut → Nat
  | .done results => if results.any (fun r => !r.success) then 1 else 0
  | .crashed _ _ => 1

/-- main of the current revision of scripts/deploy.ts: base, common, the
connections in directory order, then the unprotected connection-map
refresh GET, then the modules and the RPCs in directory order. -/
def mainV2 (fs : FS) (oracle : MReq → Except String MResp) : List MReq × MainOut :=
  let b := deployBase fs oracle
  let c := deployCommon fs oracle
  let conns := (connFiles fs).map (fun p => deployConnectionV2 (moduleNameOf p.1) p.2 oracle)
  let results0 := [b.2, c.2] ++ conns.map Prod.snd
  let trace0 := b.1 ++ c.1 ++ (conns.map Prod.fst).flatten
  match oracle (getReq .connectionsRoot) with
  | .error e => (trace0 ++ [getReq .connectionsRoot], .crashed results0 e)
  | .ok resp =>
    let connMap := mapFromPairs resp.appConnections
    let mods := (modFiles fs).map
      (fun p => deployModuleV2 (moduleNameOf p.1) p.2 connMap oracle)
    let rpcs := (rpcFiles fs).map
      (fun p => deployRpcV2 (moduleNameOf p.1) p.2 connMap oracle)
    (trace0 ++ [getReq .connectionsRoot] ++ (mods.map Prod.fst).flatten ++
       (rpcs.map Prod.fst).flatten,
     .done (results0 ++ mods.map Prod.snd ++ rpcs.map Prod.snd))

/-- deployBase of the earlier revision (text/plain PUT). -/
def deployBaseV1 (fs : FS) (oracle : MReq → Except String MResp) : List MReq × DeployResult :=
  match oracle (putReq .base fs.base "text/plain") with
  | .error e => ([putReq .base fs.base "text/plain"], ⟨false, "base", some e⟩)
  | .ok _ => ([putReq .base fs.base "text/plain"], ⟨true, "base", none⟩)

/-- deployCommon of the earlier revision. -/
def deployCommonV1 (fs : FS) (oracle : MReq → Except String MResp) : List MReq × DeployResult :=
  match oracle (putReq .common fs.common "text/plain") with
  | .error e => ([putReq .common fs.common "text/plain"], ⟨false, "common", some e⟩)
  | .ok _ => ([putReq .common fs.common "text/plain"], ⟨true, "common", none⟩)

/-- The conditional code PUTs of a connection in the earlier revision. -/
def connPutsV1 (name : String) (cfg : FileCfg) : List MReq :=
  ([(cfg.communication, MEndpoint.connectionApi name),
    (cfg.parameters, MEndpoint.connectionParameters name)]).filterMap
    (fun p => p.1.map (fun v => putReq p.2 v "text/plain"))

/-- deployConnection of the earlier revision: an unconditional create
attempt whose failure is swallowed, then the code PUTs. -/
def deployConnectionV1 (name : String) (cfg : FileCfg)
    (oracle : MReq → Except String MResp) : List MReq × DeployResult :=
  let rCreate : MReq := ⟨"POST", .connectionsRoot,
    some (.connCreateV1 name (jsLabel cfg.label name) (jsLabel cfg.type "basic")),
    "application/json"⟩
  match putSeq oracle (connPutsV1 name cfg) with
  | (ptrace, some e) => (rCreate :: ptrace, ⟨false, "connection:" ++ name, some e⟩)
  | (ptrace, none) => (rCreate :: ptrace, ⟨true, "connection:" ++ name, none⟩)

/-- deployModule of the earlier revision: an unconditional create attempt
whose failure is swallowed, then the code PUTs. -/
def deployModuleV1 (name : String) (cfg : FileCfg)
    (oracle : MReq → Except String MResp) : List MReq × DeployResult :=
  let rCreate : MReq := ⟨"POST", .modulesRoot,
    some (.modCreateV1 name (jsLabel cfg.label name) (jsLabel cfg.description "")
      (getModuleTypeIdV1 (moduleTypeOf cfg.type)) (jsOptStr cfg.connection) "blank"),
    "application/json"⟩
  match putSeq oracle (modulePuts name cfg "text/plain") with
  | (ptrace, some e) => (rCreate :: ptrace, ⟨false, "module:" ++ name, some e⟩)
  | (ptrace, none) => (rCreate :: ptrace, ⟨true, "module:" ++ name, none⟩)

/-- deployRpc of the earlier revision. -/
def deployRpcV1 (name : String) (cfg : FileCfg)
    (oracle : MReq → Except String MResp) : List MReq × DeployResult :=
  let rCreate : MReq := ⟨"POST", .rpcsRoot,
    some (.rpcCreateV1 name (jsLabel cfg.label name) (jsOptStr cfg.connection)),
    "application/json"⟩
  match putSeq oracle (rpcPuts name cfg "text/plain") with
  | (ptrace, some e) => (rCreate :: ptrace, ⟨false, "rpc:" ++ name, some e⟩)
  | (ptrace, none) => (rCreate :: ptrace, ⟨true, "rpc:" ++ name, none⟩)

/-- main of the earlier revision: base, common, connections, modules,
RPCs, each directory in order; it always reaches the summary. -/
def mainV1 (fs : FS) (oracle : MReq → Except String MResp) :
    List MReq × List DeployResult :=
  let b := deployBaseV1 fs oracle
  let c := deployCommonV1 fs oracle
  let conns := (connFiles fs).map (fun p => deployConnectionV1 (moduleNameOf p.1) p.2 oracle)
  let mods := (modFiles fs).map (fun p => deployModuleV1 (moduleNameOf p.1) p.2 oracle)
  let rpcs := (rpcFiles fs).map (fun p => deployRpcV1 (moduleNameOf p.1) p.2 oracle)
  (b.1 ++ c.1 ++ (conns.map Prod.fst).flatten ++ (mods.map Prod.fst).flatten ++
     (rpcs.map Prod.fst).flatten,
   [b.2, c.2] ++ conns.map Prod.snd ++ mods.map Prod.snd ++ rpcs.map Prod.snd)

/-- The exit code of the earlier revision main. -/
def exitCodeV1 (results : List DeployResult) : Nat :=
  if results.any (fun r => !r.success) then 1 else 0

theorem putSeq_mem (oracle : MReq → Except String MResp) :
    ∀ (rs : List MReq) (r : MReq), r ∈ (putSeq oracle rs).1 → r ∈ rs := by
  intro rs
  induction rs with
  | nil => intro r hr; simp [putSeq] at hr
  | cons q qs ih =>
    intro r hr
    simp only [putSeq] at hr
    cases hq : oracle q with
    | error e =>
      simp only [hq] at hr
      simp at hr
      rw [hr]
      exact List.mem_cons_self q qs
    | ok m =>
      simp only [hq] at hr
      simp only [List.mem_cons] at hr
      rcases hr with rfl | hr
      · exact List.mem_cons_self r qs
      · exact List.mem_cons_of_mem q (ih r hr)

theorem modulePuts_cat (name : String) (cfg : FileCfg) (ct : String) :
    ∀ r ∈ modulePuts name cfg ct, catRank r.endpoint = 3 := by
  intro r hr
  simp only [modulePuts, List.mem_filterMap] at hr
  obtain ⟨p, hp, hpr⟩ := hr
  rw [Option.map_eq_some'] at hpr
  obtain ⟨v, -, hrv⟩ := hpr
  simp only [List.mem_cons, List.not_mem_nil, or_false] at hp
  rcases hp with rfl | rfl | rfl | rfl <;> (subst hrv; rfl)

theorem rpcPuts_cat (name : String) (cfg : FileCfg) (ct : String) :
    ∀ r ∈ rpcPuts name cfg ct, catRank r.endpoint = 4 := by
  intro r hr
  simp only [rpcPuts, List.mem_filterMap] at hr
  obtain ⟨p, hp, hpr⟩ := hr
  rw [Option.map_eq_some'] at hpr
  obtain ⟨v, -, hrv⟩ := hpr
  simp only [List.mem_cons, List.not_mem_nil, or_false] at hp
  rcases hp with rfl | rfl <;> (subst hrv; rfl)

theorem connPutsV1_cat (name : String) (cfg : FileCfg) :
    ∀ r ∈ connPutsV1 name cfg, catRank r.endpoint = 2 := by
  intro r hr
  simp only [connPutsV1, List.mem_filterMap] at hr
  obtain ⟨p, hp, hpr⟩ := hr
  rw [Option.map_eq_some'] at hpr
  obtain ⟨v, -, hrv⟩ := hpr
  simp only [List.mem_cons, List.not_mem_nil, or_false] at hp
  rcases hp with rfl | rfl <;> (subst hrv; rfl)

theorem deployBase_cat (fs : FS) (oracle : MReq → Except String MResp) :
    ∀ r ∈ (deployBase fs oracle).1, catRank r.endpoint = 0 := by
  intro r hr
  simp only [deployBase] at hr
  cases h : oracle (putReq .base fs.base "application/jsonc") <;>
    (simp only [h] at hr; simp at hr; subst hr; rfl)

theorem deployCommon_cat (fs : FS) (oracle : MReq → Except String MResp) :
    ∀ r ∈ (deployCommon fs oracle).1, catRank r.endpoint = 1 := by
  intro r hr
  simp only [deployCommon] at hr
  cases h : oracle (putReq .common fs.common "application/json") <;>
    (simp only [h] at hr; simp at hr; subst hr; rfl)

theorem deployBaseV1_cat (fs : FS) (oracle : MReq → Except String MResp) :
    ∀ r ∈ (deployBaseV1 fs oracle).1, catRank r.endpoint = 0 := by
  intro r hr
  simp only [deployBaseV1] at hr
  cases h : oracle (putReq .base fs.base "text/plain") <;>
    (simp only [h] at hr; simp at hr; subst hr; rfl)

theorem deployCommonV1_cat (fs : FS) (oracle : MReq → Except String MResp) :
    ∀ r ∈ (deployCommonV1 fs oracle).1, catRank r.endpoint = 1 := by
  intro r hr
  simp only [deployCommonV1] at hr
  cases h : oracle (putReq .common fs.common "text/plain") <;>
    (simp only [h] at hr; simp at hr; subst hr; rfl)

theorem deployConnectionV2_cat (n : String) (cfg : FileCfg)
    (oracle : MReq → Except String MResp) :
    ∀ r ∈ (deployConnectionV2 n cfg oracle).1, catRank r.endpoint = 2 := by
  intro r hr
  simp only [deployConnectionV2] at hr
  cases h1 : oracle (getReq .connectionsRoot) with
  | error e =>
    simp only [h1] at hr
    simp at hr; subst hr; rfl
  | ok resp =>
    simp only [h1] at hr
    cases h2 : jsOptStr (assocGetS (mapFromPairs resp.appConnections)
        (jsLabel cfg.label n)) with
    | some m => simp only [h2] at hr; simp at hr; subst hr; rfl
    | none =>
      simp only [h2] at hr
      cases h3 : oracle ⟨"POST", .connectionsRoot,
          some (.connCreateV2 (jsLabel cfg.label n) (jsLabel cfg.type "basic")),
          "application/json"⟩ with
      | error e =>
        simp only [h3] at hr
        simp at hr
        rcases hr with rfl | rfl <;> rfl
      | ok resp2 =>
        simp only [h3] at hr
        cases h4 : resp2.appConnection with
        | none => simp only [h4] at hr; simp at hr; rcases hr with rfl | rfl <;> rfl
        | some m => simp only [h4] at hr; simp at hr; rcases hr with rfl | rfl <;> rfl

theorem deployModuleV2_cat (n : String) (cfg : FileCfg) (connMap : List (String × String))
    (oracle : MReq → Except String MResp) :
    ∀ r ∈ (deployModuleV2 n cfg connMap oracle).1, catRank r.endpoint = 3 := by
  intro r hr
  simp only [deployModuleV2] at hr
  cases h1 : oracle (getReq .modulesRoot) with
  | error e => simp only [h1] at hr; simp at hr; subst hr; rfl
  | ok resp =>
    simp only [h1] at hr
    have hcreate : ∀ s ∈ (if resp.appModules.contains n then ([] : List MReq)
        else [⟨"POST", .modulesRoot,
          some (.modCreateV2 n (jsLabel cfg.label n) (jsLabel cfg.description "")
            (getModuleTypeId (moduleTypeOf cfg.type))
            (match jsOptStr cfg.connection with
             | some c => resolveConnection connMap c
             | none => none)), "application/json"⟩]), catRank s.endpoint = 3 := by
      intro s hs
      split at hs
      · simp at hs
      · simp at hs; subst hs; rfl
    cases h2 : putSeq oracle (if resp.appModules.contains n then ([] : List MReq)
        else [⟨"POST", .modulesRoot,
          some (.modCreateV2 n (jsLabel cfg.label n) (jsLabel cfg.description "")
            (getModuleTypeId (moduleTypeOf cfg.type))
            (match jsOptStr cfg.connection with
             | some c => resolveConnection connMap c
             | none => none)), "application/json"⟩]) with
    | mk ctrace cerr =>
      simp only [h2] at hr
      have hct : ∀ s ∈ ctrace, catRank s.endpoint = 3 := by
        intro s hs
        refine hcreate s (putSeq_mem oracle _ s ?_)
        rw [h2]
        exact hs
      cases cerr with
      | some e =>
        dsimp only at hr
        simp only [List.mem_cons] at hr
        rcases hr with rfl | hr
        · rfl
        · exact hct r hr
      | none =>
        dsimp only at hr
        cases h3 : putSeq oracle (modulePuts n cfg "application/jsonc") with
        | mk ptrace perr =>
          simp only [h3] at hr
          have hpt : ∀ s ∈ ptrace, catRank s.endpoint = 3 := by
            intro s hs
            have : s ∈ (putSeq oracle (modulePuts n cfg "application/jsonc")).1 := by
              rw [h3]; exact hs
            exact modulePuts_cat n cfg _ s (putSeq_mem oracle _ s this)
          cases perr with
          | some e =>
            dsimp only at hr
            simp only [List.mem_cons, List.mem_append] at hr
            rcases hr with rfl | hr | hr
            · rfl
            · exact hct r hr
            · exact hpt r hr
          | none =>
            dsimp only at hr
            simp only [List.mem_cons, List.mem_append] at hr
            rcases hr with rfl | hr | hr
            · rfl
            · exact hct r hr
            · exact hpt r hr

theorem deployRpcV2_cat (n : String) (cfg : FileCfg) (connMap : List (String × String))
    (oracle : MReq → Except String MResp) :
    ∀ r ∈ (deployRpcV2 n cfg connMap oracle).1, catRank r.endpoint = 4 := by
  intro r hr
  simp only [deployRpcV2] at hr
  cases h1 : oracle (getReq .rpcsRoot) with
  | error e => simp only [h1] at hr; simp at hr; subst hr; rfl
  | ok resp =>
    simp only [h1] at hr
    have hcreate : ∀ s ∈ (if resp.appRpcs.contains n then ([] : List MReq)
        else [⟨"POST", .rpcsRoot,
          some (.rpcCreateV2 n (jsLabel cfg.label n)
            (match jsOptStr cfg.connection with
             | some c => resolveConnectionRpc connMap c
             | none => none)), "application/json"⟩]), catRank s.endpoint = 4 := by
      intro s hs
      split at hs
      · simp at hs
      · simp at hs; subst hs; rfl
    cases h2 : putSeq oracle (if resp.appRpcs.contains n then ([] : List MReq)
        else [⟨"POST", .rpcsRoot,
          some (.rpcCreateV2 n (jsLabel cfg.label n)
            (match jsOptStr cfg.connection with
             | some c => resolveConnectionRpc connMap c
             | none => none)), "application/json"⟩]) with
    | mk ctrace cerr =>
      simp only [h2] at hr
      have hct : ∀ s ∈ ctrace, catRank s.endpoint = 4 := by
        intro s hs
        refine hcreate s (putSeq_mem oracle _ s ?_)
        rw [h2]
        exact hs
      cases cerr with
      | some e =>
        dsimp only at hr
        simp only [List.mem_cons] at hr
        rcases hr with rfl | hr
        · rfl
        · exact hct r hr
      | none =>
        dsimp only at hr
        cases h3 : putSeq oracle (rpcPuts n cfg "application/jsonc") with
        | mk ptrace perr =>
          simp only [h3] at hr
          have hpt : ∀ s ∈ ptrace, catRank s.endpoint = 4 := by
            intro s hs
            have : s ∈ (putSeq oracle (rpcPuts n cfg "application/jsonc")).1 := by
              rw [h3]; exact hs
            exact rpcPuts_cat n cfg _ s (putSeq_mem oracle _ s this)
          cases perr with
          | some e =>
            dsimp only at hr
            simp only [List.mem_cons, List.mem_append] at hr
            rcases hr with rfl | hr | hr
            · rfl
            · exact hct r hr
            · exact hpt r hr
          | none =>
            dsimp only at hr
            simp only [List.mem_cons, List.mem_append] at hr
            rcases hr with rfl | hr | hr
            · rfl
            · exact hct r hr
            · exact hpt r hr

theorem deployConnectionV1_cat (n : String) (cfg : FileCfg)
    (oracle : MReq → Except String MResp) :
    ∀ r ∈ (deployConnectionV1 n cfg oracle).1, catRank r.endpoint = 2 := by
  intro r hr
  simp only [deployConnectionV1] at hr
  cases h2 : putSeq oracle (connPutsV1 n cfg) with
  | mk ptrace perr =>
    simp only [h2] at hr
    have hpt : ∀ s ∈ ptrace, catRank s.endpoint = 2 := by
      intro s hs
      have : s ∈ (putSeq oracle (connPutsV1 n cfg)).1 := by rw [h2]; exact hs
      exact connPutsV1_cat n cfg s (putSeq_mem oracle _ s this)
    cases perr with
    | some e =>
      dsimp only at hr
      simp only [List.mem_cons] at hr
      rcases hr with rfl | hr
      · rfl
      · exact hpt r hr
    | none =>
      dsimp only at hr
      simp only [List.mem_cons] at hr
      rcases hr with rfl | hr
      · rfl
      · exact hpt r hr

theorem deployModuleV1_cat (n : String) (cfg : FileCfg)
    (oracle : MReq → Except String MResp) :
    ∀ r ∈ (deployModuleV1 n cfg oracle).1, catRank r.endpoint = 3 := by
  intro r hr
  simp only [deployModuleV1] at hr
  cases h2 : putSeq oracle (modulePuts n cfg "text/plain") with
  | mk ptrace perr =>
    simp only [h2] at hr
    have hpt : ∀ s ∈ ptrace, catRank s.endpoint = 3 := by
      intro s hs
      have : s ∈ (putSeq oracle (modulePuts n cfg "text/plain")).1 := by rw [h2]; exact hs
      exact modulePuts_cat n cfg _ s (putSeq_mem oracle _ s this)
    cases perr with
    | some e =>
      dsimp only at hr
      simp only [List.mem_cons] at hr
      rcases hr with rfl | hr
      · rfl
      · exact hpt r hr
    | none =>
      dsimp only at hr
      simp only [List.mem_cons] at hr
      rcases hr with rfl | hr
      · rfl
      · exact hpt r hr

theorem deployRpcV1_cat (n : String) (cfg : FileCfg)
    (oracle : MReq → Except String MResp) :
    ∀ r ∈ (deployRpcV1 n cfg oracle).1, catRank r.endpoint = 4 := by
  intro r hr
  simp only [deployRpcV1] at hr
  cases h2 : putSeq oracle (rpcPuts n cfg "text/plain") with
  | mk ptrace perr =>
    simp only [h2] at hr
    have hpt : ∀ s ∈ ptrace, catRank s.endpoint = 4 := by
      intro s hs
      have : s ∈ (putSeq oracle (rpcPuts n cfg "text/plain")).1 := by rw [h2]; exact hs
      exact rpcPuts_cat n cfg _ s (putSeq_mem oracle _ s this)
    cases perr with
    | some e =>
      dsimp only at hr
      simp only [List.mem_cons] at hr
      rcases hr with rfl | hr
      · rfl
      · exact hpt r hr
    | none =>
      dsimp only at hr
      simp only [List.mem_cons] at hr
      rcases hr with rfl | hr
      · rfl
      · exact hpt r hr

theorem pairwise_cat_const (l : List MReq) (c : Nat)
    (h : ∀ r ∈ l, catRank r.endpoint = c) :
    List.Pairwise (· ≤ ·) (l.map (fun r => catRank r.endpoint)) := by
  induction l with
  | nil => simp
  | cons a as ih =>
    simp only [List.map_cons, List.pairwise_cons]
    refine ⟨?_, ih (fun r hr => h r (List.mem_cons_of_mem a hr))⟩
    intro b hb
    obtain ⟨s, hs, rfl⟩ := List.mem_map.mp hb
    rw [h a (List.mem_cons_self a as), h s (List.mem_cons_of_mem a hs)]

theorem pairwise_cat_append (l1 l2 : List MReq) (c : Nat)
    (h1 : ∀ r ∈ l1, catRank r.endpoint ≤ c) (h2 : ∀ s ∈ l2, c ≤ catRank s.endpoint)
    (p1 : List.Pairwise (· ≤ ·) (l1.map (fun r => catRank r.endpoint)))
    (p2 : List.Pairwise (· ≤ ·) (l2.map (fun r => catRank r.endpoint))) :
    List.Pairwise (· ≤ ·) ((l1 ++ l2).map (fun r => catRank r.endpoint)) := by
  rw [List.map_append]
  refine List.pairwise_append.mpr ⟨p1, p2, ?_⟩
  intro a ha b hb
  obtain ⟨r, hr, rfl⟩ := List.mem_map.mp ha
  obtain ⟨s, hs, rfl⟩ := List.mem_map.mp hb
  exact le_trans (h1 r hr) (h2 s hs)

theorem connJoin_cat_v2 (fs : FS) (oracle : MReq → Except String MResp) :
    ∀ r ∈ ((connFiles fs).map
        (fun p => (deployConnectionV2 (moduleNameOf p.1) p.2 oracle).1)).flatten,
      catRank r.endpoint = 2 := by
  intro r hr
  rw [List.mem_flatten] at hr
  obtain ⟨l, hl, hrl⟩ := hr
  obtain ⟨p, -, rfl⟩ := List.mem_map.mp hl
  exact deployConnectionV2_cat _ _ oracle r hrl

theorem modJoin_cat_v2 (fs : FS) (connMap : List (String × String))
    (oracle : MReq → Except String MResp) :
    ∀ r ∈ ((modFiles fs).map
        (fun p => (deployModuleV2 (moduleNameOf p.1) p.2 connMap oracle).1)).flatten,
      catRank r.endpoint = 3 := by
  intro r hr
  rw [List.mem_flatten] at hr
  obtain ⟨l, hl, hrl⟩ := hr
  obtain ⟨p, -, rfl⟩ := List.mem_map.mp hl
  exact deployModuleV2_cat _ _ connMap oracle r hrl

theorem rpcJoin_cat_v2 (fs : FS) (connMap : List (String × String))
    (oracle : MReq → Except String MResp) :
    ∀ r ∈ ((rpcFiles fs).map
        (fun p => (deployRpcV2 (moduleNameOf p.1) p.2 connMap oracle).1)).flatten,
      catRank r.endpoint = 4 := by
  intro r hr
  rw [List.mem_flatten] at hr
  obtain ⟨l, hl, hrl⟩ := hr
  obtain ⟨p, -, rfl⟩ := List.mem_map.mp hl
  exact deployRpcV2_cat _ _ connMap oracle r hrl

theorem connJoin_cat_v1 (fs : FS) (oracle : MReq → Except String MResp) :
    ∀ r ∈ ((connFiles fs).map
        (fun p => (deployConnectionV1 (moduleNameOf p.1) p.2 oracle).1)).flatten,
      catRank r.endpoint = 2 := by
  intro r hr
  rw [List.mem_flatten] at hr
  obtain ⟨l, hl, hrl⟩ := hr
  obtain ⟨p, -, rfl⟩ := List.mem_map.mp hl
  exact deployConnectionV1_cat _ _ oracle r hrl

theorem modJoin_cat_v1 (fs : FS) (oracle : MReq → Except String MResp) :
    ∀ r ∈ ((modFiles fs).map
        (fun p => (deployModuleV1 (moduleNameOf p.1) p.2 oracle).1)).flatten,
      catRank r.endpoint = 3 := by
  intro r hr
  rw [List.mem_flatten] at hr
  obtain ⟨l, hl, hrl⟩ := hr
  obtain ⟨p, -, rfl⟩ := List.mem_map.mp hl
  exact deployModuleV1_cat _ _ oracle r hrl

theorem rpcJoin_cat_v1 (fs : FS) (oracle : MReq → Except String MResp) :
    ∀ r ∈ ((rpcFiles fs).map
        (fun p => (deployRpcV1 (moduleNameOf p.1) p.2 oracle).1)).flatten,
      catRank r.endpoint = 4 := by
  intro r hr
  rw [List.mem_flatten] at hr
  obtain ⟨l, hl, hrl⟩ := hr
  obtain ⟨p, -, rfl⟩ := List.mem_map.mp hl
  exact deployRpcV1_cat _ _ oracle r hrl

/-- C6: both revisions of the deploy script issue their SDK requests in
category order: base first, then common, then all connection requests,
then all module requests, then all RPC requests; within the connection,
module and RPC phases the imljson files are processed in directory order
(the trace is exactly the concatenation of the per-file traces in that
order, with the current revision inserting its connection-map refresh GET,
itself a connection-category request, between connections and modules). -/
theorem deploy_requests_category_ordered :
    (∀ (fs : FS) (oracle : MReq → Except String MResp),
      List.Pairwise (· ≤ ·)
        ((mainV2 fs oracle).1.map (fun r => catRank r.endpoint))) ∧
    (∀ (fs : FS) (oracle : MReq → Except String MResp),
      List.Pairwise (· ≤ ·)
        ((mainV1 fs oracle).1.map (fun r => catRank r.endpoint))) ∧
    (∀ (fs : FS) (oracle : MReq → Except String MResp),
      (mainV1 fs oracle).1 =
        (deployBaseV1 fs oracle).1 ++ (deployCommonV1 fs oracle).1 ++
        ((connFiles fs).map
          (fun p => (deployConnectionV1 (moduleNameOf p.1) p.2 oracle).1)).flatten ++
        ((modFiles fs).map
          (fun p => (deployModuleV1 (moduleNameOf p.1) p.2 oracle).1)).flatten ++
        ((rpcFiles fs).map
          (fun p => (deployRpcV1 (moduleNameOf p.1) p.2 oracle).1)).flatten) ∧
    (∀ (fs : FS) (oracle : MReq → Except String MResp), ∃ tail,
      (mainV2 fs oracle).1 =
        (deployBase fs oracle).1 ++ (deployCommon fs oracle).1 ++
        ((connFiles fs).map
          (fun p => (deployConnectionV2 (moduleNameOf p.1) p.2 oracle).1)).flatten ++
        [getReq .connectionsRoot] ++ tail ∧
      ∀ r ∈ tail, 3 ≤ catRank r.endpoint) := by
  have hV2shape : ∀ (fs : FS) (oracle : MReq → Except String MResp),
      (mainV2 fs oracle).1 =
        (deployBase fs oracle).1 ++ ((deployCommon fs oracle).1 ++
        (((connFiles fs).map
          (fun p => (deployConnectionV2 (moduleNameOf p.1) p.2 oracle).1)).flatten ++
        ([getReq .connectionsRoot] ++
        (match oracle (getReq .connectionsRoot) with
         | .error _ => []
         | .ok resp =>
           ((modFiles fs).map (fun p => (deployModuleV2 (moduleNameOf p.1) p.2
             (mapFromPairs resp.appConnections) oracle).1)).flatten ++
           ((rpcFiles fs).map (fun p => (deployRpcV2 (moduleNameOf p.1) p.2
             (mapFromPairs resp.appConnections) oracle).1)).flatten)))) := by
    intro fs oracle
    cases h : oracle (getReq .connectionsRoot) with
    | error e =>
      simp only [mainV2, h]
      simp [List.map_map, Function.comp_def, List.append_assoc]
    | ok resp =>
      simp only [mainV2, h]
      simp [List.map_map, Function.comp_def, List.append_assoc]
  refine ⟨?_, ?_, ?_, ?_⟩
  · intro fs oracle
    rw [hV2shape fs oracle]
    refine pairwise_cat_append _ _ 0
      (fun r hr => le_of_eq (deployBase_cat fs oracle r hr))
      (fun s _ => Nat.zero_le _)
      (pairwise_cat_const _ 0 (deployBase_cat fs oracle)) ?_
    refine pairwise_cat_append _ _ 1
      (fun r hr => le_of_eq (deployCommon_cat fs oracle r hr)) ?_
      (pairwise_cat_const _ 1 (deployCommon_cat fs oracle)) ?_
    · intro s hs
      simp only [List.mem_append, List.mem_cons, List.not_mem_nil, or_false] at hs
      rcases hs with hs | hs | hs
      · rw [connJoin_cat_v2 fs oracle s hs]; omega
      · subst hs; simp [getReq, catRank]
      · cases h : oracle (getReq .connectionsRoot) with
        | error e => rw [h] at hs; simp at hs
        | ok resp =>
          rw [h] at hs
          simp only [List.mem_append] at hs
          rcases hs with hs | hs
          · rw [modJoin_cat_v2 fs _ oracle s hs]; omega
          · rw [rpcJoin_cat_v2 fs _ oracle s hs]; omega
    · refine pairwise_cat_append _ _ 2
        (fun r hr => le_of_eq (connJoin_cat_v2 fs oracle r hr)) ?_
        (pairwise_cat_const _ 2 (connJoin_cat_v2 fs oracle)) ?_
      · intro s hs
        simp only [List.mem_append, List.mem_cons, List.not_mem_nil, or_false] at hs
        rcases hs with hs | hs
        · subst hs; simp [getReq, catRank]
        · cases h : oracle (getReq .connectionsRoot) with
          | error e => rw [h] at hs; simp at hs
          | ok resp =>
            rw [h] at hs
            simp only [List.mem_append] at hs
            rcases hs with hs | hs
            · rw [modJoin_cat_v2 fs _ oracle s hs]; omega
            · rw [rpcJoin_cat_v2 fs _ oracle s hs]; omega
      · refine pairwise_cat_append _ _ 2
          (fun r hr => by
            simp only [List.mem_cons, List.not_mem_nil, or_false] at hr
            subst hr; simp [getReq, catRank]) ?_
          (pairwise_cat_const _ 2 (fun r hr => by
            simp only [List.mem_cons, List.not_mem_nil, or_false] at hr
            subst hr; rfl)) ?_
        · intro s hs
          cases h : oracle (getReq .connectionsRoot) with
          | error e => rw [h] at hs; simp at hs
          | ok resp =>
            rw [h] at hs
            simp only [List.mem_append] at hs
            rcases hs with hs | hs
            · rw [modJoin_cat_v2 fs _ oracle s hs]; omega
            · rw [rpcJoin_cat_v2 fs _ oracle s hs]; omega
        · cases h : oracle (getReq .connectionsRoot) with
          | error e => simp
          | ok resp =>
            dsimp only
            exact pairwise_cat_append _ _ 3
              (fun r hr => le_of_eq (modJoin_cat_v2 fs _ oracle r hr))
              (fun s hs => by rw [rpcJoin_cat_v2 fs _ oracle s hs]; omega)
              (pairwise_cat_const _ 3 (modJoin_cat_v2 fs _ oracle))
              (pairwise_cat_const _ 4 (rpcJoin_cat_v2 fs _ oracle))
  · intro fs oracle
    have hshape : (mainV1 fs oracle).1 =
        (deployBaseV1 fs oracle).1 ++ ((deployCommonV1 fs oracle).1 ++
        (((connFiles fs).map
          (fun p => (deployConnectionV1 (moduleNameOf p.1) p.2 oracle).1)).flatten ++
        (((modFiles fs).map
          (fun p => (deployModuleV1 (moduleNameOf p.1) p.2 oracle).1)).flatten ++
        ((rpcFiles fs).map
          (fun p => (deployRpcV1 (moduleNameOf p.1) p.2 oracle).1)).flatten))) := by
      simp only [mainV1]
      simp [List.map_map, Function.comp_def, List.append_assoc]
    rw [hshape]
    refine pairwise_cat_append _ _ 0
      (fun r hr => le_of_eq (deployBaseV1_cat fs oracle r hr))
      (fun s _ => Nat.zero_le _)
      (pairwise_cat_const _ 0 (deployBaseV1_cat fs oracle)) ?_
    refine pairwise_cat_append _ _ 1
      (fun r hr => le_of_eq (deployCommonV1_cat fs oracle r hr)) ?_
      (pairwise_cat_const _ 1 (deployCommonV1_cat fs oracle)) ?_
    · intro s hs
      simp only [List.mem_append] at hs
      rcases hs with hs | hs | hs
      · rw [connJoin_cat_v1 fs oracle s hs]; omega
      · rw [modJoin_cat_v1 fs oracle s hs]; omega
      · rw [rpcJoin_cat_v1 fs oracle s hs]; omega
    · refine pairwise_cat_append _ _ 2
        (fun r hr => le_of_eq (connJoin_cat_v1 fs oracle r hr)) ?_
        (pairwise_cat_const _ 2 (connJoin_cat_v1 fs oracle)) ?_
      · intro s hs
        simp only [List.mem_append] at hs
        rcases hs with hs | hs
        · rw [modJoin_cat_v1 fs oracle s hs]; omega
        · rw [rpcJoin_cat_v1 fs oracle s hs]; omega
      · exact pairwise_cat_append _ _ 3
          (fun r hr => le_of_eq (modJoin_cat_v1 fs oracle r hr))
          (fun s hs => by rw [rpcJoin_cat_v1 fs oracle s hs]; omega)
          (pairwise_cat_const _ 3 (modJoin_cat_v1 fs oracle))
          (pairwise_cat_const _ 4 (rpcJoin_cat_v1 fs oracle))
  · intro fs oracle
    simp only [mainV1]
    simp [List.map_map, Function.comp_def, List.append_assoc]
  · intro fs oracle
    cases h : oracle (getReq .connectionsRoot) with
    | error e =>
      refine ⟨[], ?_, by simp⟩
      simp only [mainV2, h]
      simp [List.map_map, Function.comp_def, List.append_assoc]
    | ok resp =>
      refine ⟨((modFiles fs).map (fun p => (deployModuleV2 (moduleNameOf p.1) p.2
          (mapFromPairs resp.appConnections) oracle).1)).flatten ++
        ((rpcFiles fs).map (fun p => (deployRpcV2 (moduleNameOf p.1) p.2
          (mapFromPairs resp.appConnections) oracle).1)).flatten, ?_, ?_⟩
      · simp only [mainV2, h]
        simp [List.map_map, Function.comp_def, List.append_assoc]
      · intro r hr
        simp only [List.mem_append] at hr
        rcases hr with hr | hr
        · rw [modJoin_cat_v2 fs _ oracle r hr]
        · rw [rpcJoin_cat_v2 fs _ oracle r hr]; omega

/-- Witness for C6: the category-order part instantiated on the empty
filesystem and an oracle that accepts everything. -/
theorem deploy_requests_category_ordered_witness :
    List.Pairwise (· ≤ ·)
      ((mainV2 ⟨.null, .null, none, none, none⟩ (fun _ => .ok ⟨[], [], [], none⟩)).1.map
        (fun r => catRank r.endpoint)) :=
  deploy_requests_category_ordered.1 ⟨.null, .null, none, none, none⟩
    (fun _ => .ok ⟨[], [], [], none⟩)

/-- The result list accumulated by the current-revision main, whether it
reached the summary or crashed at the refresh GET. -/
def resultsOf : MainOut → List DeployResult
  | .done rs => rs
  | .crashed rs _ => rs

/-- An empty project: null base and common documents, no component
directories. -/
def fsEmptyEx : FS := ⟨.null, .null, none, none, none⟩

/-- A management API that accepts every PUT and POST but fails every GET. -/
def getFailOracle : MReq → Except String MResp :=
  fun r => if r.method = "GET" then .error "HTTP 500: Internal Server Error"
           else .ok ⟨[], [], [], none⟩

theorem deployBase_err (fs : FS) (oracle : MReq → Except String MResp) :
    (deployBase fs oracle).2.success = false → (deployBase fs oracle).2.error ≠ none := by
  simp only [deployBase]
  cases h : oracle (putReq .base fs.base "application/jsonc") <;> simp

theorem deployCommon_err (fs : FS) (oracle : MReq → Except String MResp) :
    (deployCommon fs oracle).2.success = false → (deployCommon fs oracle).2.error ≠ none := by
  simp only [deployCommon]
  cases h : oracle (putReq .common fs.common "application/json") <;> simp

theorem deployConnectionV2_err (n : String) (cfg : FileCfg)
    (oracle : MReq → Except String MResp) :
    (deployConnectionV2 n cfg oracle).2.success = false →
    (deployConnectionV2 n cfg oracle).2.error ≠ none := by
  simp only [deployConnectionV2]
  cases h1 : oracle (getReq .connectionsRoot) with
  | error e => simp
  | ok resp =>
    dsimp only
    cases h2 : jsOptStr (assocGetS (mapFromPairs resp.appConnections) (jsLabel cfg.label n)) with
    | some s => simp
    | none =>
      dsimp only
      cases h3 : oracle ⟨"POST", .connectionsRoot,
          some (.connCreateV2 (jsLabel cfg.label n) (jsLabel cfg.type "basic")),
          "application/json"⟩ with
      | error e => simp
      | ok resp2 =>
        dsimp only
        cases h4 : resp2.appConnection <;> simp

theorem deployModuleV2_err (n : String) (cfg : FileCfg) (connMap : List (String × String))
    (oracle : MReq → Except String MResp) :
    (deployModuleV2 n cfg connMap oracle).2.success = false →
    (deployModuleV2 n cfg connMap oracle).2.error ≠ none := by
  simp only [deployModuleV2]
  cases h1 : oracle (getReq .modulesRoot) with
  | error e => simp
  | ok resp =>
    dsimp only
    cases h2 : putSeq oracle (if resp.appModules.contains n then ([] : List MReq)
        else [⟨"POST", .modulesRoot,
          some (.modCreateV2 n (jsLabel cfg.label n) (jsLabel cfg.description "")
            (getModuleTypeId (moduleTypeOf cfg.type))
            (match jsOptStr cfg.connection with
             | some c => resolveConnection connMap c
             | none => none)), "application/json"⟩]) with
    | mk ctrace cerr =>
      cases cerr with
      | some e => simp
      | none =>
        dsimp only
        cases h3 : putSeq oracle (modulePuts n cfg "application/jsonc") with
        | mk ptrace perr => cases perr <;> simp

theorem deployRpcV2_err (n : String) (cfg : FileCfg) (connMap : List (String × String))
    (oracle : MReq → Except String MResp) :
    (deployRpcV2 n cfg connMap oracle).2.success = false →
    (deployRpcV2 n cfg connMap oracle).2.error ≠ none := by
  simp only [deployRpcV2]
  cases h1 : oracle (getReq .rpcsRoot) with
  | error e => simp
  | ok resp =>
    dsimp only
    cases h2 : putSeq oracle (if resp.appRpcs.contains n then ([] : List MReq)
        else [⟨"POST", .rpcsRoot,
          some (.rpcCreateV2 n (jsLabel cfg.label n)
            (match jsOptStr cfg.connection with
             | some c => resolveConnectionRpc connMap c
             | none => none)), "application/json"⟩]) with
    | mk ctrace cerr =>
      cases cerr with
      | some e => simp
      | none =>
        dsimp only
        cases h3 : putSeq oracle (rpcPuts n cfg "application/jsonc") with
        | mk ptrace perr => cases perr <;> simp

/-- C9 counterexample: on an empty project with a management API whose GET
requests fail, the current-revision main crashes at the unprotected
connection-map refresh and exits with code 1 although every accumulated
component result has success = true, so exit code 1 is not equivalent to
the presence of a failed result. -/
theorem deploy_exit_despite_all_success :
    exitCodeV2 (mainV2 fsEmptyEx getFailOracle).2 = 1 ∧
    resultsOf (mainV2 fsEmptyEx getFailOracle).2 =
      [⟨true, "base", none⟩, ⟨true, "common", none⟩] ∧
    (resultsOf (mainV2 fsEmptyEx getFailOracle).2).any (fun r => !r.success) = false :=
  ⟨rfl, rfl, rfl⟩

/-- C9 (amended): each component deploy function of the current revision
converts every failure into a DeployResult with success = false and a
non-null error; main collects one result per component before and after
the connection-map refresh, and when it reaches the summary it exits 1
exactly when some result failed; but the refresh GET itself is
unprotected: its failure crashes main past the connection results with
exit code 1 regardless of the results collected. -/
theorem deploy_errors_contained_amended :
    (∀ (fs : FS) (oracle : MReq → Except String MResp),
      (deployBase fs oracle).2.success = false → (deployBase fs oracle).2.error ≠ none) ∧
    (∀ (fs : FS) (oracle : MReq → Except String MResp),
      (deployCommon fs oracle).2.success = false → (deployCommon fs oracle).2.error ≠ none) ∧
    (∀ (n : String) (cfg : FileCfg) (oracle : MReq → Except String MResp),
      (deployConnectionV2 n cfg oracle).2.success = false →
      (deployConnectionV2 n cfg oracle).2.error ≠ none) ∧
    (∀ (n : String) (cfg : FileCfg) (connMap : List (String × String))
        (oracle : MReq → Except String MResp),
      (deployModuleV2 n cfg connMap oracle).2.success = false →
      (deployModuleV2 n cfg connMap oracle).2.error ≠ none) ∧
    (∀ (n : String) (cfg : FileCfg) (connMap : List (String × String))
        (oracle : MReq → Except String MResp),
      (deployRpcV2 n cfg connMap oracle).2.success = false →
      (deployRpcV2 n cfg connMap oracle).2.error ≠ none) ∧
    (∀ (fs : FS) (oracle : MReq → Except String MResp) (rs : List DeployResult) (e : String),
      (mainV2 fs oracle).2 = .crashed rs e →
      exitCodeV2 (mainV2 fs oracle).2 = 1 ∧
      oracle (getReq .connectionsRoot) = .error e ∧
      rs.length = 2 + (connFiles fs).length) ∧
    (∀ (fs : FS) (oracle : MReq → Except String MResp) (rs : List DeployResult),
      (mainV2 fs oracle).2 = .done rs →
      rs.length = 2 + (connFiles fs).length + (modFiles fs).length + (rpcFiles fs).length ∧
      (exitCodeV2 (mainV2 fs oracle).2 = 1 ↔ ∃ r ∈ rs, r.success = false) ∧
      (∀ r ∈ rs, r.success = false → r.error ≠ none)) := by
  refine ⟨deployBase_err, deployCommon_err, deployConnectionV2_err,
    deployModuleV2_err, deployRpcV2_err, ?_, ?_⟩
  · intro fs oracle rs e hd
    have hd0 := hd
    simp only [mainV2] at hd
    cases h : oracle (getReq .connectionsRoot) with
    | error e0 =>
      simp only [h] at hd
      injection hd with h1 h2
      refine ⟨by rw [hd0]; rfl, by rw [h2], ?_⟩
      rw [← h1]
      simp only [List.length_append, List.length_map, List.length_cons, List.length_nil]
    | ok resp =>
      simp only [h] at hd
      exact absurd hd (by simp)
  · intro fs oracle rs hd
    have hd0 := hd
    simp only [mainV2] at hd
    cases h : oracle (getReq .connectionsRoot) with
    | error e0 =>
      simp only [h] at hd
      exact absurd hd (by simp)
    | ok resp =>
      simp only [h] at hd
      injection hd with h1
      refine ⟨?_, ?_, ?_⟩
      · rw [← h1]
        simp only [List.length_append, List.length_map, List.length_cons, List.length_nil]
      · rw [hd0]
        simp only [exitCodeV2]
        constructor
        · intro hone
          by_cases hany : rs.any (fun r => !r.success) = true
          · rw [List.any_eq_true] at hany
            obtain ⟨r, hr, hns⟩ := hany
            exact ⟨r, hr, by simpa using hns⟩
          · rw [if_neg hany] at hone
            exact absurd hone (by omega)
        · intro ⟨r, hr, hs⟩
          rw [if_pos]
          rw [List.any_eq_true]
          exact ⟨r, hr, by simp [hs]⟩
      · intro r hr hs
        rw [← h1] at hr
        simp only [List.append_assoc, List.map_map, Function.comp_def, List.mem_append,
          List.mem_cons, List.not_mem_nil, or_false, List.mem_map] at hr
        rcases hr with (rfl | rfl) | ⟨p, -, rfl⟩ | ⟨p, -, rfl⟩ | ⟨p, -, rfl⟩
        · exact deployBase_err fs oracle hs
        · exact deployCommon_err fs oracle hs
        · exact deployConnectionV2_err _ _ oracle hs
        · exact deployModuleV2_err _ _ _ oracle hs
        · exact deployRpcV2_err _ _ _ oracle hs

/-- Witness for C9 (amended): the crashed clause instantiated on the empty
project with the GET-failing oracle, where main indeed crashes with the
refresh error after exactly the base, common and connection results. -/
theorem deploy_errors_contained_amended_witness :
    exitCodeV2 (mainV2 fsEmptyEx getFailOracle).2 = 1 ∧
    getFailOracle (getReq .connectionsRoot) = .error "HTTP 500: Internal Server Error" ∧
    ([(⟨true, "base", none⟩ : DeployResult), ⟨true, "common", none⟩]).length =
      2 + (connFiles fsEmptyEx).length :=
  deploy_errors_contained_amended.2.2.2.2.2.1 fsEmptyEx getFailOracle
    [⟨true, "base", none⟩, ⟨true, "common", none⟩] "HTTP 500: Internal Server Error" rfl

end EveryRow
